import Mathlib

/-!
# Verification of the Ditto inventory pipeline

Shallow embedding, in Lean 4, of the decision logic of the Ditto
repository (prosolis/Ditto): the schema validator / normalizer of
`automated_inventory.py` and `automated_graded_inventory.py`, the JSON
repair layer (`sanitize_llm_json` / `_repair_truncated_json`), the
per-item retry loop (`process_item`), the removal / resequencing tool
(`remove_item.py`) and the platform-name normalizer
(`pricecharting_collection_generator.py`).

Conventions used throughout:
* Python values flowing through the validator are modelled by `PyVal`;
  Python floats are modelled by exact rationals (noted at each place
  where rounding could matter).
* Python dicts are modelled by association lists (`JDict`) with
  first-match lookup and in-place-style update.
* Python exceptions are modelled by `Except String`; the string carries
  the kind and message of the exception.
-/

set_option maxHeartbeats 1000000

namespace Ditto

/-- A Python runtime value, as used by the validator dictionaries.
`float` is modelled as an exact rational. `bool` is kept distinct from
`int` but the numeric predicates below mirror the fact that Python's
`bool` is a subclass of `int`. -/
inductive PyVal where
  | null
  | bool (b : Bool)
  | int (n : Int)
  | float (q : Rat)
  | str (s : String)
  | list (xs : List PyVal)
  deriving Repr

/-- Python truthiness: `None`, `False`, `0`, `0.0`, `""` and `[]` are falsy. -/
def PyVal.isTruthy : PyVal → Bool
  | .null => false
  | .bool b => b
  | .int n => n != 0
  | .float q => q != 0
  | .str s => s != ""
  | .list xs => !xs.isEmpty

/-- `isinstance(v, (int, float))` — in Python `bool` is a subclass of `int`. -/
def PyVal.isNumber : PyVal → Bool
  | .int _ => true
  | .float _ => true
  | .bool _ => true
  | _ => false

/-- `isinstance(v, int)` — also true for `bool` in Python. -/
def PyVal.isIntLike : PyVal → Bool
  | .int _ => true
  | .bool _ => true
  | _ => false

def PyVal.isStr : PyVal → Bool
  | .str _ => true
  | _ => false

def PyVal.isBool : PyVal → Bool
  | .bool _ => true
  | _ => false

def PyVal.isList : PyVal → Bool
  | .list _ => true
  | _ => false

def PyVal.isNull : PyVal → Bool
  | .null => true
  | _ => false

/-- Numeric value of a Python number (`True` counts as 1, `False` as 0).
Returns 0 on non-numbers; callers guard with `isNumber`. -/
def PyVal.toQ : PyVal → Rat
  | .int n => (n : Rat)
  | .float q => q
  | .bool b => if b then 1 else 0
  | _ => 0

/-- Integer value of an int-like Python value (`int(True) = 1`). -/
def PyVal.toInt : PyVal → Int
  | .int n => n
  | .bool b => if b then 1 else 0
  | _ => 0

/-- `str(v)` for the values the validator stringifies.  Python float
formatting is approximated by the rational printed in decimal when exact
(no theorem below depends on the float branch). -/
def PyVal.pyStr : PyVal → String
  | .null => "None"
  | .bool b => if b then "True" else "False"
  | .int n => toString n
  | .float q => toString q
  | .str s => s
  | .list _ => "[...]"

/-- Python whitespace for `str.strip()`. -/
def pyIsSpace (c : Char) : Bool :=
  c == ' ' || c == '\t' || c == '\n' || c == '\r' || c == '\x0b' || c == '\x0c'

def pyStripChars (l : List Char) : List Char :=
  ((l.dropWhile pyIsSpace).reverse.dropWhile pyIsSpace).reverse

/-- `s.strip()` on a Python string. -/
def pyStrip (s : String) : String :=
  String.mk (pyStripChars s.data)

def pyLowerChar (c : Char) : Char :=
  if 65 ≤ c.toNat && c.toNat ≤ 90 then Char.ofNat (c.toNat + 32) else c

/-- `s.lower()` — ASCII case folding (the source only compares ASCII
platform/category tokens). -/
def pyLower (s : String) : String :=
  String.mk (s.data.map pyLowerChar)

/-- A Python dict, modelled as an association list with first-match
lookup.  Python dicts have unique keys; `set` replaces the first
occurrence in place (keeping position) or appends, which agrees with
Python for unique-key dicts. -/
abbrev JDict := List (String × PyVal)

namespace JDict

def get : JDict → String → Option PyVal
  | [], _ => none
  | (k, v) :: t, key => if k = key then some v else get t key

/-- `d.get(key, default)` -/
def getD (d : JDict) (key : String) (dflt : PyVal) : PyVal :=
  (d.get key).getD dflt

def containsKey (d : JDict) (key : String) : Bool :=
  (d.get key).isSome

def set : JDict → String → PyVal → JDict
  | [], key, v => [(key, v)]
  | (k, w) :: t, key, v => if k = key then (key, v) :: t else (k, w) :: set t key v

@[simp] theorem get_nil (key : String) : get [] key = none := rfl

@[simp] theorem get_set_self (d : JDict) (key : String) (v : PyVal) :
    (d.set key v).get key = some v := by
  induction d with
  | nil => simp [set, get]
  | cons p t ih =>
    obtain ⟨k, w⟩ := p
    by_cases h : k = key <;> simp [set, get, h, ih]

@[simp] theorem get_set_ne (d : JDict) (key k : String) (v : PyVal) (h : k ≠ key) :
    (d.set key v).get k = d.get k := by
  induction d with
  | nil => simp [set, get, Ne.symm h]
  | cons p t ih =>
    obtain ⟨k₀, w⟩ := p
    by_cases h₀ : k₀ = key
    · rw [h₀]
      simp [set, get, Ne.symm h]
    · by_cases h₁ : k₀ = k <;> simp [set, get, h₀, h₁, ih, h]

theorem containsKey_set (d : JDict) (key k : String) (v : PyVal) :
    (d.set key v).containsKey k = if k = key then true else d.containsKey k := by
  by_cases h : k = key <;> simp [containsKey, h]

end JDict

/-! ## Schema validator (`validate_inventory_item`)

The validator of `automated_inventory.py` (base) and
`automated_graded_inventory.py` (graded) is a sequence of checks and
in-place fixes on the parsed model output.  Each numbered block of the
source becomes one step function below; the two validators are then the
two chains of those steps, in source order.  Print statements are
dropped; every `raise` becomes `.error`.
-/

/-- `PRICECHARTING_MAX_RESULTS` — environment default 5 in both scripts. -/
def PRICECHARTING_MAX_RESULTS : Int := 5

/-- `MAX_RETRIES` — environment default 2 in both scripts. -/
def MAX_RETRIES : Nat := 2

def requiredFields : List String :=
  ["item_name", "confidence", "confidence_reason",
   "estimated_value_usd", "price_source", "pricing_basis", "category"]

def validPricingBase : List String :=
  ["COMPLETE_IN_BOX", "LOOSE_CART", "LOOSE_DISC", "NEW_SEALED",
   "LOOSE_ACCESSORY", "CONSOLE_ONLY", "COMPLETE_CONSOLE",
   "HANDHELD_ONLY", "COMPLETE_HANDHELD", "USED"]

def validPricingGraded : List String :=
  validPricingBase ++ ["GRADED_SLAB"]

/-- `v in list_of_strings` for a Python value (`==` against each entry). -/
def isOneOfStr (v : PyVal) (l : List String) : Bool :=
  match v with
  | .str s => l.contains s
  | _ => false

/-- `if not data.get('manual_review_reason'): data['manual_review_reason'] = msg` -/
def setReasonIfEmpty (d : JDict) (msg : String) : JDict :=
  if (d.getD "manual_review_reason" .null).isTruthy then d
  else d.set "manual_review_reason" (.str msg)

/-- Step: check for missing required fields (first check in both
validators; raises naming the missing fields). -/
def checkRequired (d : JDict) : Except String JDict :=
  let missing := requiredFields.filter (fun f => !d.containsKey f)
  if missing.isEmpty then .ok d
  else .error ("Missing required fields: " ++ toString missing)

/-- Step: `confidence` must be HIGH/MEDIUM/LOW; `None` is coerced to LOW,
any other invalid value raises. -/
def fixConfidence (d : JDict) : Except String JDict :=
  if isOneOfStr (d.getD "confidence" .null) ["HIGH", "MEDIUM", "LOW"] then .ok d
  else if (d.getD "confidence" .null).isNull then .ok (d.set "confidence" (.str "LOW"))
  else .error ("Invalid confidence: " ++ (d.getD "confidence" .null).pyStr ++
    " (must be HIGH/MEDIUM/LOW)")

/-- Step: `pricing_basis` — `None` is defaulted (USED in the base
validator, GRADED_SLAB in the graded one) with a review flag; a
slash-separated value keeps its first component with a review flag; a
non-string non-null value reproduces the `TypeError` of Python's
`'/' in pricing_basis`; finally the value must be in the valid list. -/
def pbDefaultNull (dflt : String) (d : JDict) : JDict :=
  match d.getD "pricing_basis" .null with
  | .null =>
      let d := d.set "pricing_basis" (.str dflt)
      let d := d.set "manual_review_recommended" (.bool true)
      setReasonIfEmpty d "LLM could not determine condition - please verify"
  | _ => d

def pbSlash (d : JDict) : Except String JDict :=
  match d.getD "pricing_basis" .null with
  | .str s =>
      if s.data.contains '/' then
        let first := pyStrip (String.mk (s.data.takeWhile (fun ch => ch != '/')))
        let d := d.set "pricing_basis" (.str first)
        let d := d.set "manual_review_recommended" (.bool true)
        .ok (setReasonIfEmpty d "LLM uncertain about condition - please verify")
      else .ok d
  | .list xs =>
      if xs.any (fun v => match v with | .str s => s = "/" | _ => false) then
        .error "AttributeError: list object has no attribute split"
      else .ok d
  | .null => .ok d
  | _ => .error "TypeError: argument of type is not iterable"

def pbCheckValid (valid : List String) (d : JDict) : Except String JDict :=
  if isOneOfStr (d.getD "pricing_basis" .null) valid then .ok d
  else .error ("Invalid pricing_basis: " ++ (d.getD "pricing_basis" .null).pyStr)

def fixPricingBasis (dflt : String) (valid : List String) (d : JDict) :
    Except String JDict := do
  let d ← pbSlash (pbDefaultNull dflt d)
  pbCheckValid valid d

/-- `(data.get(key) or '').lower()` — a falsy value becomes the empty
string; a truthy non-string would raise `AttributeError` on `.lower()`. -/
def loweredStrOrEmpty (v : PyVal) : Except String String :=
  if !v.isTruthy then .ok ""
  else match v with
    | .str s => .ok (pyLower s)
    | _ => .error "AttributeError: object has no attribute lower"

def cibMandatoryPlatforms : List String :=
  ["playstation", "ps1", "ps2", "ps3", "ps4", "ps5",
   "xbox", "xbox 360", "xbox one", "xbox series",
   "gamecube", "wii", "wii u",
   "sega cd", "saturn", "dreamcast",
   "pc", "3do", "cdi", "pc engine cd",
   "ds", "nintendo ds", "3ds", "nintendo 3ds",
   "switch", "nintendo switch", "ps vita", "vita"]

def discKeywords : List String :=
  ["playstation", "xbox", "gamecube", "dreamcast", "saturn", "sega cd",
   "wii", "3do", "cdi"]

/-- `needle in haystack` on Python strings (substring test). -/
def charsInfix (needle : List Char) : List Char → Bool
  | [] => needle.isEmpty
  | c :: t => needle.isPrefixOf (c :: t) || charsInfix needle t

def strContains (hay needle : String) : Bool :=
  charsInfix needle.data hay.data

/-- The `platform_should_be_cib` computation of the base validator:
the lowered platform contains a complete-in-box token, or (for category
"video game software" with a non-empty platform) a disc keyword. -/
def platformShouldBeCib (platform category : String) : Bool :=
  let cib := cibMandatoryPlatforms.any (fun p => strContains platform p)
  if !cib && category = "video game software" && platform ≠ "" then
    discKeywords.any (fun p => strContains platform p)
  else cib

/-- Step (base validator only): platform-based condition defaults.
If the lowered platform contains a token of the complete-in-box table
(or, for category "video game software", a disc keyword) and
`pricing_basis` is LOOSE_DISC or LOOSE_CART, overwrite it to
COMPLETE_IN_BOX and flag review. -/
def platformPolicy (d : JDict) : Except String JDict := do
  let platform ← loweredStrOrEmpty (d.getD "platform" .null)
  let category ← loweredStrOrEmpty (d.getD "category" .null)
  if platformShouldBeCib platform category &&
      isOneOfStr (d.getD "pricing_basis" .null) ["LOOSE_DISC", "LOOSE_CART"] then
    pure (setReasonIfEmpty
      ((d.set "pricing_basis" (.str "COMPLETE_IN_BOX")).set
        "manual_review_recommended" (.bool true))
      ("LLM set " ++ (d.getD "pricing_basis" .null).pyStr ++
        " but platform defaults to COMPLETE_IN_BOX - please verify"))
  else pure d

def numericFields : List String :=
  ["estimated_value_usd", "value_range_min", "value_range_max"]

/-- One iteration of the numeric-field loop. -/
def checkNumField (d : JDict) (f : String) : Except String Unit :=
  match d.get f with
  | some v =>
      if !v.isNumber then .error (f ++ " must be number")
      else if v.toQ < 0 then .error (f ++ " cannot be negative")
      else .ok ()
  | none => .ok ()

/-- Step: numeric fields present must be numbers (Python `isinstance`
accepts `bool`) and non-negative; violations raise.  The source loop
runs over the three fields in order. -/
def checkNumerics (d : JDict) : Except String JDict := do
  let _ ← checkNumField d "estimated_value_usd"
  let _ ← checkNumField d "value_range_min"
  let _ ← checkNumField d "value_range_max"
  pure d

/-- Step: auto-fix a swapped value range.  The comparison uses
`data.get(field, 0)`; the subsequent log line and tuple assignment use
`data[field]` directly, so a missing `value_range_max` with a positive
present `value_range_min` raises `KeyError`. -/
def swapRange (d : JDict) : Except String JDict :=
  if (d.getD "value_range_min" (.int 0)).toQ > (d.getD "value_range_max" (.int 0)).toQ then
    match d.get "value_range_min", d.get "value_range_max" with
    | some a, some b =>
        .ok ((d.set "value_range_min" b).set "value_range_max" a)
    | none, _ => .error "KeyError: value_range_min"
    | _, none => .error "KeyError: value_range_max"
  else .ok d

/-- One iteration of the boolean-field loop. -/
def checkBoolField (d : JDict) (f : String) : Except String Unit :=
  match d.get f with
  | some v => if !v.isBool then .error (f ++ " must be boolean") else .ok ()
  | none => .ok ()

/-- Step: boolean fields present must be `bool`; the source loop runs
over `personal_effect_eligible` then `manual_review_recommended`. -/
def checkBools (d : JDict) : Except String JDict := do
  let _ ← checkBoolField d "personal_effect_eligible"
  let _ ← checkBoolField d "manual_review_recommended"
  pure d

/-- Step: `warnings` present must be a list. -/
def checkWarnings (d : JDict) : Except String JDict :=
  match d.get "warnings" with
  | some v => if !v.isList then .error "warnings must be array" else .ok d
  | none => .ok d

/-- The item-name test shared by both validators:
`not data.get('item_name') or not isinstance(..., str) or ....strip() == ''`. -/
def itemNameBad (v : PyVal) : Bool :=
  !v.isTruthy ||
    (match v with
     | .str s => pyStrip s = ""
     | _ => true)

/-- Step (base validator): an empty / null / non-string / whitespace-only
`item_name` is replaced by the placeholder and flagged for review.  This
step cannot fail (the base validator recovers instead of raising). -/
def recoverItemName (d : JDict) : JDict :=
  if itemNameBad (d.getD "item_name" .null) then
    let d := d.set "item_name" (.str "Unidentified Item")
    let d := d.set "manual_review_recommended" (.bool true)
    setReasonIfEmpty d "LLM could not identify item name - please review and rename"
  else d

/-- Step (graded validator): the same test raises instead of recovering. -/
def checkItemName (d : JDict) : Except String JDict :=
  if itemNameBad (d.getD "item_name" .null) then
    .error "item_name cannot be empty or null"
  else .ok d

/-- Step: a non-null non-string `issue_number` is stringified. -/
def coerceIssueNumber (d : JDict) : JDict :=
  match d.get "issue_number" with
  | some v => if !v.isNull && !v.isStr then d.set "issue_number" (.str v.pyStr) else d
  | none => d

/-- Truncation toward zero of a rational, as Python `int()` on a float. -/
def ratTrunc (q : Rat) : Int := Int.tdiv q.num (q.den : Int)

/-- Step: `year` present and non-null must be numeric, and is coerced to
`int`. -/
def coerceYear (d : JDict) : Except String JDict :=
  match d.get "year" with
  | some v =>
      if v.isNull then .ok d
      else if !v.isNumber then .error "year must be integer or null"
      else match v with
        | .float q => .ok (d.set "year" (.int (ratTrunc q)))
        | _ => .ok (d.set "year" (.int v.toInt))
  | none => .ok d

/-- Step: `grade` present and non-null must be numeric. -/
def checkGrade (d : JDict) : Except String JDict :=
  match d.get "grade" with
  | some v =>
      if v.isNull then .ok d
      else if !v.isNumber then .error "grade must be number or null" else .ok d
  | none => .ok d

/-- Step: `grader` present and non-null must be a string. -/
def checkGrader (d : JDict) : Except String JDict :=
  match d.get "grader" with
  | some v =>
      if v.isNull then .ok d
      else if !v.isStr then .error "grader must be string or null" else .ok d
  | none => .ok d

/-- Step (graded validator): non-null non-string `certification_number`
is stringified. -/
def coerceCertification (d : JDict) : JDict :=
  match d.get "certification_number" with
  | some v =>
      if !v.isNull && !v.isStr then d.set "certification_number" (.str v.pyStr) else d
  | none => d

/-- `max_valid` for `pricecharting_match_used`. -/
def maxValidResults (numResults : Int) : Int :=
  if numResults > 0 then numResults else PRICECHARTING_MAX_RESULTS

/-- Step: `pricecharting_match_used` — must be an integer (Python
`isinstance` also accepts `bool`) or null.  With zero options offered a
set value is forced to null with match-confidence NONE; with options
offered, an out-of-range value is forced to null with a review flag; an
in-range value is accepted unchanged. -/
def fixMatchUsed (numResults : Int) (d : JDict) : Except String JDict :=
  match d.get "pricecharting_match_used" with
  | none => .ok d
  | some v =>
      if v.isNull then .ok d
      else if !v.isIntLike then
        .error "pricecharting_match_used must be integer or null"
      else if numResults = 0 then
        .ok ((d.set "pricecharting_match_used" .null).set
              "pricecharting_match_confidence" (.str "NONE"))
      else if v.toInt < 1 || v.toInt > maxValidResults numResults then
        let d := d.set "pricecharting_match_used" .null
        let d := d.set "manual_review_recommended" (.bool true)
        .ok (setReasonIfEmpty d
          "LLM provided invalid PriceCharting match - please verify pricing")
      else .ok d

/-- Warning text appended on a vision/text grade mismatch. -/
def gradeMismatchWarn (vg g : PyVal) : String :=
  "Grade mismatch: Vision read " ++ vg.pyStr ++ " but LLM determined " ++ g.pyStr ++
    ". Vision reading is typically more reliable for slab labels."

/-- Step (graded validator): cross-validate the vision-pass grade against
the model grade.  If both are present and differ by more than 0.1, a
warning is appended, review is flagged; neither grade field is modified.
Python float arithmetic is modelled by exact rationals. -/
def crossValidateGrade (d : JDict) : Except String JDict :=
  if !(d.getD "vision_grade" .null).isNull && !(d.getD "grade" .null).isNull then
    if (d.getD "vision_grade" .null).isNumber && (d.getD "grade" .null).isNumber then
      if |(d.getD "vision_grade" .null).toQ - (d.getD "grade" .null).toQ| > (1 : Rat) / 10 then
        match d.getD "warnings" (.list []) with
        | .list ws =>
            .ok (setReasonIfEmpty
              ((d.set "warnings"
                  (.list (ws ++ [.str (gradeMismatchWarn (d.getD "vision_grade" .null)
                    (d.getD "grade" .null))]))).set
                "manual_review_recommended" (.bool true))
              "Grade mismatch between vision and text analysis")
        | _ => .error "AttributeError: object has no attribute append"
      else .ok d
    else .error "TypeError: unsupported operand types"
  else .ok d

/-- `validate_inventory_item` of `automated_inventory.py` (the base
validator), as the chain of its checks in source order.  Returns the
updated dict (the Python function mutates `data` in place and returns
`True`). -/
def validateBase (d : JDict) (numResults : Int) : Except String JDict := do
  let d ← checkRequired d
  let d ← fixConfidence d
  let d ← fixPricingBasis "USED" validPricingBase d
  let d ← platformPolicy d
  let d ← checkNumerics d
  let d ← swapRange d
  let d ← checkBools d
  let d ← checkWarnings d
  let d := recoverItemName d
  let d := coerceIssueNumber d
  let d ← coerceYear d
  let d ← checkGrade d
  let d ← checkGrader d
  fixMatchUsed numResults d

/-- `validate_inventory_item` of `automated_graded_inventory.py` (the
graded validator): no platform policy block, GRADED_SLAB default and
enum entry, a hard failure on empty item name, certification-number
coercion, and the vision/text grade cross-validation. -/
def validateGraded (d : JDict) (numResults : Int) : Except String JDict := do
  let d ← checkRequired d
  let d ← fixConfidence d
  let d ← fixPricingBasis "GRADED_SLAB" validPricingGraded d
  let d ← checkNumerics d
  let d ← swapRange d
  let d ← checkBools d
  let d ← checkWarnings d
  let d ← checkItemName d
  let d := coerceIssueNumber d
  let d ← coerceYear d
  let d ← checkGrade d
  let d ← checkGrader d
  let d := coerceCertification d
  let d ← fixMatchUsed numResults d
  crossValidateGrade d

/-! ## Step lemmas

For each validator step: a characterization of which dict keys the step
can modify, plus preservation of an already-true
`manual_review_recommended` flag for the steps that may set it. -/

theorem bind_ok {α β : Type} {x : Except String α} {f : α → Except String β} {c : β}
    (h : (x >>= f) = .ok c) : ∃ b, x = .ok b ∧ f b = .ok c := by
  cases x with
  | ok a => exact ⟨a, rfl, h⟩
  | error e => simp [Bind.bind, Except.bind] at h

theorem checkRequired_ok {d d' : JDict} (h : checkRequired d = .ok d') : d' = d := by
  by_cases hc : (requiredFields.filter (fun f => !d.containsKey f)).isEmpty
  · simp [checkRequired, hc] at h
    exact h.symm
  · simp [checkRequired, hc] at h

theorem setReasonIfEmpty_get (d : JDict) (m : String) {k : String}
    (hk : k ≠ "manual_review_reason") :
    (setReasonIfEmpty d m).get k = d.get k := by
  unfold setReasonIfEmpty
  split
  · rfl
  · exact JDict.get_set_ne d _ k _ hk

theorem fixConfidence_get {d d' : JDict} (h : fixConfidence d = .ok d') {k : String}
    (hk : k ≠ "confidence") : d'.get k = d.get k := by
  unfold fixConfidence at h
  split at h
  · cases h; rfl
  · split at h
    · cases h; exact JDict.get_set_ne d _ k _ hk
    · exact absurd h (by simp)

theorem pbDefaultNull_get (dflt : String) (d : JDict) {k : String}
    (h₁ : k ≠ "pricing_basis") (h₂ : k ≠ "manual_review_recommended")
    (h₃ : k ≠ "manual_review_reason") :
    (pbDefaultNull dflt d).get k = d.get k := by
  unfold pbDefaultNull
  split
  · rw [setReasonIfEmpty_get _ _ h₃, JDict.get_set_ne _ _ _ _ h₂,
      JDict.get_set_ne _ _ _ _ h₁]
  · rfl

theorem pbSlash_get {d d' : JDict} (h : pbSlash d = .ok d') {k : String}
    (h₁ : k ≠ "pricing_basis") (h₂ : k ≠ "manual_review_recommended")
    (h₃ : k ≠ "manual_review_reason") :
    d'.get k = d.get k := by
  unfold pbSlash at h
  split at h
  · split at h
    · cases h
      rw [setReasonIfEmpty_get _ _ h₃, JDict.get_set_ne _ _ _ _ h₂,
        JDict.get_set_ne _ _ _ _ h₁]
    · cases h; rfl
  · split at h
    · exact absurd h (by simp)
    · cases h; rfl
  · cases h; rfl
  · exact absurd h (by simp)

theorem pbCheckValid_ok {valid : List String} {d d' : JDict}
    (h : pbCheckValid valid d = .ok d') : d' = d := by
  unfold pbCheckValid at h
  split at h
  · cases h; rfl
  · exact absurd h (by simp)

theorem fixPricingBasis_get {dflt : String} {valid : List String} {d d' : JDict}
    (h : fixPricingBasis dflt valid d = .ok d') {k : String}
    (h₁ : k ≠ "pricing_basis") (h₂ : k ≠ "manual_review_recommended")
    (h₃ : k ≠ "manual_review_reason") :
    d'.get k = d.get k := by
  unfold fixPricingBasis at h
  obtain ⟨b, hb, hc⟩ := bind_ok h
  rw [pbCheckValid_ok hc]
  rw [pbSlash_get hb h₁ h₂ h₃, pbDefaultNull_get dflt d h₁ h₂ h₃]

theorem loweredStrOrEmpty_ok (v : PyVal) :
    (loweredStrOrEmpty v = .error "AttributeError: object has no attribute lower") ∨
    ∃ s, loweredStrOrEmpty v = .ok s := by
  unfold loweredStrOrEmpty
  split
  · right; exact ⟨"", rfl⟩
  · split
    · right; exact ⟨_, rfl⟩
    · left; rfl

theorem platformPolicy_get {d d' : JDict} (h : platformPolicy d = .ok d') {k : String}
    (h₁ : k ≠ "pricing_basis") (h₂ : k ≠ "manual_review_recommended")
    (h₃ : k ≠ "manual_review_reason") :
    d'.get k = d.get k := by
  unfold platformPolicy at h
  obtain ⟨p, hp, h⟩ := bind_ok h
  obtain ⟨c, hc, h⟩ := bind_ok h
  split at h
  · cases h
    rw [setReasonIfEmpty_get _ _ h₃, JDict.get_set_ne _ _ _ _ h₂,
      JDict.get_set_ne _ _ _ _ h₁]
  · cases h; rfl

theorem checkNumerics_ok {d d' : JDict} (h : checkNumerics d = .ok d') : d' = d := by
  unfold checkNumerics at h
  obtain ⟨_, _, h⟩ := bind_ok h
  obtain ⟨_, _, h⟩ := bind_ok h
  obtain ⟨_, _, h⟩ := bind_ok h
  cases h; rfl

theorem swapRange_get {d d' : JDict} (h : swapRange d = .ok d') {k : String}
    (h₁ : k ≠ "value_range_min") (h₂ : k ≠ "value_range_max") :
    d'.get k = d.get k := by
  unfold swapRange at h
  split at h
  · split at h
    · cases h
      rw [JDict.get_set_ne _ _ _ _ h₂, JDict.get_set_ne _ _ _ _ h₁]
    · exact absurd h (by simp)
    · exact absurd h (by simp)
  · cases h; rfl

theorem checkBools_ok {d d' : JDict} (h : checkBools d = .ok d') : d' = d := by
  unfold checkBools at h
  obtain ⟨_, _, h⟩ := bind_ok h
  obtain ⟨_, _, h⟩ := bind_ok h
  cases h; rfl

theorem checkWarnings_ok {d d' : JDict} (h : checkWarnings d = .ok d') : d' = d := by
  unfold checkWarnings at h
  split at h
  · split at h
    · exact absurd h (by simp)
    · cases h; rfl
  · cases h; rfl

theorem checkItemName_ok {d d' : JDict} (h : checkItemName d = .ok d') : d' = d := by
  unfold checkItemName at h
  split at h
  · exact absurd h (by simp)
  · cases h; rfl

theorem recoverItemName_get (d : JDict) {k : String}
    (h₁ : k ≠ "item_name") (h₂ : k ≠ "manual_review_recommended")
    (h₃ : k ≠ "manual_review_reason") :
    (recoverItemName d).get k = d.get k := by
  unfold recoverItemName
  split
  · rw [setReasonIfEmpty_get _ _ h₃, JDict.get_set_ne _ _ _ _ h₂,
      JDict.get_set_ne _ _ _ _ h₁]
  · rfl

theorem coerceIssueNumber_get (d : JDict) {k : String} (hk : k ≠ "issue_number") :
    (coerceIssueNumber d).get k = d.get k := by
  unfold coerceIssueNumber
  split
  · split
    · exact JDict.get_set_ne _ _ _ _ hk
    · rfl
  · rfl

theorem coerceYear_get {d d' : JDict} (h : coerceYear d = .ok d') {k : String}
    (hk : k ≠ "year") : d'.get k = d.get k := by
  unfold coerceYear at h
  split at h
  · split at h
    · cases h; rfl
    · split at h
      · exact absurd h (by simp)
      · split at h
        · cases h; exact JDict.get_set_ne _ _ _ _ hk
        · cases h; exact JDict.get_set_ne _ _ _ _ hk
  · cases h; rfl

theorem checkGrade_ok {d d' : JDict} (h : checkGrade d = .ok d') : d' = d := by
  unfold checkGrade at h
  split at h
  · split at h
    · cases h; rfl
    · split at h
      · exact absurd h (by simp)
      · cases h; rfl
  · cases h; rfl

theorem checkGrader_ok {d d' : JDict} (h : checkGrader d = .ok d') : d' = d := by
  unfold checkGrader at h
  split at h
  · split at h
    · cases h; rfl
    · split at h
      · exact absurd h (by simp)
      · cases h; rfl
  · cases h; rfl

theorem coerceCertification_get (d : JDict) {k : String}
    (hk : k ≠ "certification_number") :
    (coerceCertification d).get k = d.get k := by
  unfold coerceCertification
  split
  · split
    · exact JDict.get_set_ne _ _ _ _ hk
    · rfl
  · rfl

theorem fixMatchUsed_get {n : Int} {d d' : JDict} (h : fixMatchUsed n d = .ok d')
    {k : String}
    (h₁ : k ≠ "pricecharting_match_used") (h₂ : k ≠ "pricecharting_match_confidence")
    (h₃ : k ≠ "manual_review_recommended") (h₄ : k ≠ "manual_review_reason") :
    d'.get k = d.get k := by
  unfold fixMatchUsed at h
  split at h
  · cases h; rfl
  · split at h
    · cases h; rfl
    · split at h
      · exact absurd h (by simp)
      · split at h
        · cases h
          rw [JDict.get_set_ne _ _ _ _ h₂, JDict.get_set_ne _ _ _ _ h₁]
        · split at h
          · cases h
            rw [setReasonIfEmpty_get _ _ h₄, JDict.get_set_ne _ _ _ _ h₃,
              JDict.get_set_ne _ _ _ _ h₁]
          · cases h; rfl

theorem crossValidateGrade_get {d d' : JDict} (h : crossValidateGrade d = .ok d')
    {k : String}
    (h₁ : k ≠ "warnings") (h₂ : k ≠ "manual_review_recommended")
    (h₃ : k ≠ "manual_review_reason") :
    d'.get k = d.get k := by
  unfold crossValidateGrade at h
  split at h
  · split at h
    · split at h
      · split at h
        · cases h
          rw [setReasonIfEmpty_get _ _ h₃, JDict.get_set_ne _ _ _ _ h₂,
            JDict.get_set_ne _ _ _ _ h₁]
        · exact absurd h (by simp)
      · cases h; rfl
    · exact absurd h (by simp)
  · cases h; rfl

/-! Preservation of an already-set review flag: every step that touches
`manual_review_recommended` only ever sets it to `True`. -/

theorem setReasonIfEmpty_review {d : JDict} (m : String)
    (h : d.get "manual_review_recommended" = some (.bool true)) :
    (setReasonIfEmpty d m).get "manual_review_recommended" = some (.bool true) := by
  rw [setReasonIfEmpty_get d m (by decide)]
  exact h

theorem pbDefaultNull_review {dflt : String} {d : JDict}
    (h : d.get "manual_review_recommended" = some (.bool true)) :
    (pbDefaultNull dflt d).get "manual_review_recommended" = some (.bool true) := by
  unfold pbDefaultNull
  split
  · exact setReasonIfEmpty_review _ (by simp)
  · exact h

theorem pbSlash_review {d d' : JDict} (hok : pbSlash d = .ok d')
    (h : d.get "manual_review_recommended" = some (.bool true)) :
    d'.get "manual_review_recommended" = some (.bool true) := by
  unfold pbSlash at hok
  split at hok
  · split at hok
    · cases hok; exact setReasonIfEmpty_review _ (by simp)
    · cases hok; exact h
  · split at hok
    · exact absurd hok (by simp)
    · cases hok; exact h
  · cases hok; exact h
  · exact absurd hok (by simp)

theorem fixPricingBasis_review {dflt : String} {valid : List String} {d d' : JDict}
    (hok : fixPricingBasis dflt valid d = .ok d')
    (h : d.get "manual_review_recommended" = some (.bool true)) :
    d'.get "manual_review_recommended" = some (.bool true) := by
  unfold fixPricingBasis at hok
  obtain ⟨b, hb, hc⟩ := bind_ok hok
  rw [pbCheckValid_ok hc]
  exact pbSlash_review hb (pbDefaultNull_review h)

theorem platformPolicy_review {d d' : JDict} (hok : platformPolicy d = .ok d')
    (h : d.get "manual_review_recommended" = some (.bool true)) :
    d'.get "manual_review_recommended" = some (.bool true) := by
  unfold platformPolicy at hok
  obtain ⟨p, hp, hok⟩ := bind_ok hok
  obtain ⟨c, hc, hok⟩ := bind_ok hok
  split at hok
  · cases hok; exact setReasonIfEmpty_review _ (by simp)
  · cases hok; exact h

theorem recoverItemName_review {d : JDict}
    (h : d.get "manual_review_recommended" = some (.bool true)) :
    (recoverItemName d).get "manual_review_recommended" = some (.bool true) := by
  unfold recoverItemName
  split
  · exact setReasonIfEmpty_review _ (by simp)
  · exact h

theorem fixMatchUsed_review {n : Int} {d d' : JDict} (hok : fixMatchUsed n d = .ok d')
    (h : d.get "manual_review_recommended" = some (.bool true)) :
    d'.get "manual_review_recommended" = some (.bool true) := by
  unfold fixMatchUsed at hok
  split at hok
  · cases hok; exact h
  · split at hok
    · cases hok; exact h
    · split at hok
      · exact absurd hok (by simp)
      · split at hok
        · cases hok
          rw [JDict.get_set_ne _ _ _ _ (by decide), JDict.get_set_ne _ _ _ _ (by decide)]
          exact h
        · split at hok
          · cases hok; exact setReasonIfEmpty_review _ (by simp)
          · cases hok; exact h

theorem crossValidateGrade_review {d d' : JDict} (hok : crossValidateGrade d = .ok d')
    (h : d.get "manual_review_recommended" = some (.bool true)) :
    d'.get "manual_review_recommended" = some (.bool true) := by
  unfold crossValidateGrade at hok
  split at hok
  · split at hok
    · split at hok
      · split at hok
        · cases hok; exact setReasonIfEmpty_review _ (by simp)
        · exact absurd hok (by simp)
      · cases hok; exact h
    · exact absurd hok (by simp)
  · cases hok; exact h

/-! Decomposition of the two validator chains into their effective
(state-changing) steps; the pure checks are collapsed using the identity
lemmas above. -/

theorem validateBase_ok {d : JDict} {n : Int} {r : JDict}
    (h : validateBase d n = .ok r) :
    ∃ dc dp dq ds dy,
      fixConfidence d = .ok dc ∧
      fixPricingBasis "USED" validPricingBase dc = .ok dp ∧
      platformPolicy dp = .ok dq ∧
      checkNumerics dq = .ok dq ∧
      swapRange dq = .ok ds ∧
      coerceYear (coerceIssueNumber (recoverItemName ds)) = .ok dy ∧
      fixMatchUsed n dy = .ok r := by
  unfold validateBase at h
  obtain ⟨a, ha, h⟩ := bind_ok h
  rw [checkRequired_ok ha] at h
  obtain ⟨dc, hc, h⟩ := bind_ok h
  obtain ⟨dp, hp, h⟩ := bind_ok h
  obtain ⟨dq, hq, h⟩ := bind_ok h
  obtain ⟨dn, hn, h⟩ := bind_ok h
  have he₁ := checkNumerics_ok hn
  rw [he₁] at hn h
  obtain ⟨ds, hs, h⟩ := bind_ok h
  obtain ⟨db, hb, h⟩ := bind_ok h
  rw [checkBools_ok hb] at h
  obtain ⟨dw, hw, h⟩ := bind_ok h
  rw [checkWarnings_ok hw] at h
  obtain ⟨dy, hy, h⟩ := bind_ok h
  obtain ⟨dg, hg, h⟩ := bind_ok h
  rw [checkGrade_ok hg] at h
  obtain ⟨dr, hr, h⟩ := bind_ok h
  rw [checkGrader_ok hr] at h
  exact ⟨dc, dp, dq, ds, dy, hc, hp, hq, hn, hs, hy, h⟩

theorem validateGraded_ok {d : JDict} {n : Int} {r : JDict}
    (h : validateGraded d n = .ok r) :
    ∃ dc dp ds dy dm,
      fixConfidence d = .ok dc ∧
      fixPricingBasis "GRADED_SLAB" validPricingGraded dc = .ok dp ∧
      checkNumerics dp = .ok dp ∧
      swapRange dp = .ok ds ∧
      checkItemName ds = .ok ds ∧
      coerceYear (coerceIssueNumber ds) = .ok dy ∧
      fixMatchUsed n (coerceCertification dy) = .ok dm ∧
      crossValidateGrade dm = .ok r ∧
      checkWarnings ds = .ok ds := by
  unfold validateGraded at h
  obtain ⟨a, ha, h⟩ := bind_ok h
  rw [checkRequired_ok ha] at h
  obtain ⟨dc, hc, h⟩ := bind_ok h
  obtain ⟨dp, hp, h⟩ := bind_ok h
  obtain ⟨dn, hn, h⟩ := bind_ok h
  have he₁ := checkNumerics_ok hn
  rw [he₁] at hn h
  obtain ⟨ds, hs, h⟩ := bind_ok h
  obtain ⟨db, hb, h⟩ := bind_ok h
  rw [checkBools_ok hb] at h
  obtain ⟨dw, hw, h⟩ := bind_ok h
  have he₃ := checkWarnings_ok hw
  rw [he₃] at hw h
  obtain ⟨di, hi, h⟩ := bind_ok h
  have he₂ := checkItemName_ok hi
  rw [he₂] at hi h
  obtain ⟨dy, hy, h⟩ := bind_ok h
  obtain ⟨dg, hg, h⟩ := bind_ok h
  rw [checkGrade_ok hg] at h
  obtain ⟨dr, hr, h⟩ := bind_ok h
  rw [checkGrader_ok hr] at h
  obtain ⟨dm, hm, h⟩ := bind_ok h
  exact ⟨dc, dp, ds, dy, dm, hc, hp, hn, hs, hi, hy, hm, h, hw⟩

/-! ## Concrete inputs used by counterexamples and witnesses -/

/-- A minimal model output satisfying every check of both validators:
exactly the seven fields the source lists as required. -/
def okDict : JDict :=
  [("item_name", .str "Chrono Trigger"), ("confidence", .str "HIGH"),
   ("confidence_reason", .str "exact match"), ("estimated_value_usd", .int 120),
   ("price_source", .str "PriceCharting"), ("pricing_basis", .str "USED"),
   ("category", .str "Video Game Software")]

/-! ## C4 — required fields -/

/-- Claim C4 (amended): the required-field list of both validators is the
seven fields `item_name`, `confidence`, `confidence_reason`,
`estimated_value_usd`, `price_source`, `pricing_basis`, `category`
(`value_range_min` / `value_range_max` are not required); an input
missing any of them makes both validators raise a hard failure naming
exactly the missing fields, before any other rule is applied. -/
theorem C4_required_fields (d : JDict) (n : Int)
    (h : requiredFields.filter (fun f => !d.containsKey f) ≠ []) :
    validateBase d n =
        .error ("Missing required fields: " ++
          toString (requiredFields.filter (fun f => !d.containsKey f))) ∧
      validateGraded d n =
        .error ("Missing required fields: " ++
          toString (requiredFields.filter (fun f => !d.containsKey f))) := by
  have hne : (requiredFields.filter (fun f => !d.containsKey f)).isEmpty = false := by
    cases hl : requiredFields.filter (fun f => !d.containsKey f) with
    | nil => exact absurd hl h
    | cons a t => rfl
  constructor
  · simp [validateBase, checkRequired, hne, Bind.bind, Except.bind]
  · simp [validateGraded, checkRequired, hne, Bind.bind, Except.bind]

/-- Witness for C4: the empty dict is missing all seven fields and both
validators fail naming them. -/
theorem C4_required_fields_witness :
    requiredFields.filter (fun f => !JDict.containsKey [] f) ≠ [] ∧
      validateBase [] 0 =
        .error ("Missing required fields: " ++
          toString (requiredFields.filter (fun f => !JDict.containsKey [] f))) := by
  exact ⟨by decide, (C4_required_fields [] 0 (by decide)).1⟩

/-- Counterexample for C4 as frozen: the claim lists `value_range_min`
and `value_range_max` among the required fields, but an input missing
both of them (with the seven code-required fields present) passes both
validators instead of raising. -/
theorem C4_counterexample :
    JDict.containsKey okDict "value_range_min" = false ∧
      JDict.containsKey okDict "value_range_max" = false ∧
      (validateBase okDict 0).isOk = true ∧
      (validateGraded okDict 0).isOk = true := by
  refine ⟨by decide, by decide, by decide, by decide⟩

/-! ## C6 — value-range auto-fix -/

theorem swapRange_swaps {d : JDict} {a b : PyVal}
    (ha : JDict.get d "value_range_min" = some a)
    (hb : JDict.get d "value_range_max" = some b)
    (hgt : a.toQ > b.toQ) :
    swapRange d = .ok ((d.set "value_range_min" b).set "value_range_max" a) := by
  unfold swapRange
  rw [JDict.getD, JDict.getD, ha, hb]
  simp [hgt]

/-- Claim C6 (amended): when both `value_range_min` and
`value_range_max` are present and min exceeds max, the base validator
swaps the two values and this fix never raises; the swap step leaves
`manual_review_recommended` untouched.  (When the comparison fires with
`value_range_max` absent — min present and positive — the code instead
raises `KeyError`, so the missing-field-counts-as-0 reading of the
original claim fails; see the counterexample.) -/
theorem C6_range_swap :
    (∀ (d : JDict) (n : Int) (r : JDict) (a b : PyVal),
      validateBase d n = .ok r →
      JDict.get d "value_range_min" = some a →
      JDict.get d "value_range_max" = some b →
      a.toQ > b.toQ →
      JDict.get r "value_range_min" = some b ∧
        JDict.get r "value_range_max" = some a) ∧
    (∀ d₀ d₁ : JDict, swapRange d₀ = .ok d₁ →
      JDict.get d₁ "manual_review_recommended" =
        JDict.get d₀ "manual_review_recommended") := by
  constructor
  · intro d n r a b hok ha hb hgt
    obtain ⟨dc, dp, dq, ds, dy, hc, hp, hq, hn, hs, hy, hm⟩ := validateBase_ok hok
    have hqa : JDict.get dq "value_range_min" = some a := by
      rw [platformPolicy_get hq (by decide) (by decide) (by decide),
        fixPricingBasis_get hp (by decide) (by decide) (by decide),
        fixConfidence_get hc (by decide)]
      exact ha
    have hqb : JDict.get dq "value_range_max" = some b := by
      rw [platformPolicy_get hq (by decide) (by decide) (by decide),
        fixPricingBasis_get hp (by decide) (by decide) (by decide),
        fixConfidence_get hc (by decide)]
      exact hb
    have hsw := swapRange_swaps hqa hqb hgt
    rw [hs] at hsw
    have hds := (Except.ok.injEq _ _).mp hsw
    have hsa : JDict.get ds "value_range_min" = some b := by
      rw [hds, JDict.get_set_ne _ _ _ _ (by decide), JDict.get_set_self]
    have hsb : JDict.get ds "value_range_max" = some a := by
      rw [hds, JDict.get_set_self]
    constructor
    · rw [fixMatchUsed_get hm (by decide) (by decide) (by decide) (by decide),
        coerceYear_get hy (by decide), coerceIssueNumber_get _ (by decide),
        recoverItemName_get _ (by decide) (by decide) (by decide)]
      exact hsa
    · rw [fixMatchUsed_get hm (by decide) (by decide) (by decide) (by decide),
        coerceYear_get hy (by decide), coerceIssueNumber_get _ (by decide),
        recoverItemName_get _ (by decide) (by decide) (by decide)]
      exact hsb
  · intro d₀ d₁ h
    exact swapRange_get h (by decide) (by decide)

/-- Input for the C6 witness: both range bounds present, inverted. -/
def rangeDict : JDict :=
  okDict ++ [("value_range_min", .int 50), ("value_range_max", .int 10)]

/-- Expected validator output for `rangeDict`: the bounds swapped. -/
def rangeDictFixed : JDict :=
  okDict ++ [("value_range_min", .int 10), ("value_range_max", .int 50)]

/-- Witness for C6: `min=50, max=10` is swapped to `min=10, max=50`. -/
theorem C6_range_swap_witness :
    JDict.get rangeDictFixed "value_range_min" = some (.int 10) ∧
      JDict.get rangeDictFixed "value_range_max" = some (.int 50) :=
  C6_range_swap.1 rangeDict 0 rangeDictFixed (.int 50) (.int 10)
    (by rfl) (by rfl) (by rfl) (by decide)

/-- Input for the C6 counterexample: `value_range_min` present and
positive, `value_range_max` absent. -/
def minOnlyDict : JDict := okDict ++ [("value_range_min", .int 50)]

/-- Counterexample for C6 as frozen: with a missing field counting as 0
in the comparison, `value_range_min=50` and `value_range_max` absent
satisfy "min exceeds max", but the base validator raises `KeyError`
instead of swapping — the fix is not failure-free in that case. -/
theorem C6_counterexample :
    JDict.get minOnlyDict "value_range_min" = some (.int 50) ∧
      JDict.containsKey minOnlyDict "value_range_max" = false ∧
      (PyVal.int 50).toQ > (PyVal.null).toQ ∧
      validateBase minOnlyDict 0 = .error "KeyError: value_range_max" := by
  refine ⟨by rfl, by decide, by decide, by rfl⟩

/-! ## C1 — item-name recovery -/

theorem recoverItemName_bad {d : JDict}
    (h : itemNameBad (JDict.getD d "item_name" .null) = true) :
    JDict.get (recoverItemName d) "item_name" = some (.str "Unidentified Item") ∧
      JDict.get (recoverItemName d) "manual_review_recommended" = some (.bool true) := by
  unfold recoverItemName
  rw [h]
  simp only [if_true]
  constructor
  · rw [setReasonIfEmpty_get _ _ (by decide), JDict.get_set_ne _ _ _ _ (by decide),
      JDict.get_set_self]
  · rw [setReasonIfEmpty_get _ _ (by decide), JDict.get_set_self]

theorem checkItemName_good {d d' : JDict} (h : checkItemName d = .ok d') :
    itemNameBad (JDict.getD d "item_name" .null) = false := by
  unfold checkItemName at h
  split at h
  · exact absurd h (by simp)
  · simpa using Bool.of_not_eq_true (by assumption)

/-- Claim C1 (amended): in the base validator a null, non-string or
whitespace-only `item_name` (the field being present) is replaced by the
placeholder "Unidentified Item" with `manual_review_recommended=True`
and no failure; a missing `item_name` instead hits the required-field
hard failure.  The graded validator does not recover: it never accepts
an input whose `item_name` is empty/null/non-string/whitespace-only. -/
theorem C1_item_name :
    (∀ (d : JDict) (n : Int) (r : JDict),
      validateBase d n = .ok r →
      itemNameBad (JDict.getD d "item_name" .null) = true →
      JDict.get r "item_name" = some (.str "Unidentified Item") ∧
        JDict.get r "manual_review_recommended" = some (.bool true)) ∧
    (∀ (d : JDict) (n : Int) (r : JDict),
      validateGraded d n = .ok r →
      itemNameBad (JDict.getD d "item_name" .null) = false) := by
  constructor
  · intro d n r hok hbad
    obtain ⟨dc, dp, dq, ds, dy, hc, hp, hq, hn, hs, hy, hm⟩ := validateBase_ok hok
    have hpres : JDict.getD ds "item_name" .null = JDict.getD d "item_name" .null := by
      unfold JDict.getD
      rw [swapRange_get hs (by decide) (by decide),
        platformPolicy_get hq (by decide) (by decide) (by decide),
        fixPricingBasis_get hp (by decide) (by decide) (by decide),
        fixConfidence_get hc (by decide)]
    have hrec := recoverItemName_bad (hpres ▸ hbad)
    constructor
    · rw [fixMatchUsed_get hm (by decide) (by decide) (by decide) (by decide),
        coerceYear_get hy (by decide), coerceIssueNumber_get _ (by decide)]
      exact hrec.1
    · have hy₁ : JDict.get (coerceIssueNumber (recoverItemName ds))
          "manual_review_recommended" = some (.bool true) := by
        rw [coerceIssueNumber_get _ (by decide)]
        exact hrec.2
      have hy₂ : JDict.get dy "manual_review_recommended" = some (.bool true) := by
        rw [coerceYear_get hy (by decide)]
        exact hy₁
      exact fixMatchUsed_review hm hy₂
  · intro d n r hok
    obtain ⟨dc, dp, ds, dy, dm, hc, hp, hn, hs, hi, hy, hm, hx, hwar⟩ := validateGraded_ok hok
    have hgood := checkItemName_good hi
    have hpres : JDict.getD ds "item_name" .null = JDict.getD d "item_name" .null := by
      unfold JDict.getD
      rw [swapRange_get hs (by decide) (by decide),
        fixPricingBasis_get hp (by decide) (by decide) (by decide),
        fixConfidence_get hc (by decide)]
    rw [← hpres]
    exact hgood

/-- Input for the C1 witness: whitespace-only item name, base validator. -/
def blankNameDict : JDict := JDict.set okDict "item_name" (.str "   ")

/-- Base-validator output for `blankNameDict`. -/
def blankNameFixed : JDict :=
  (JDict.set okDict "item_name" (.str "Unidentified Item")) ++
    [("manual_review_recommended", .bool true),
     ("manual_review_reason",
      .str "LLM could not identify item name - please review and rename")]

/-- Witness for C1: the base validator replaces a whitespace-only
item name with the placeholder and flags review. -/
theorem C1_item_name_witness :
    JDict.get blankNameFixed "item_name" = some (.str "Unidentified Item") ∧
      JDict.get blankNameFixed "manual_review_recommended" = some (.bool true) :=
  C1_item_name.1 blankNameDict 0 blankNameFixed (by rfl) (by decide)

/-- Input for the C1 counterexample, graded variant: empty item name. -/
def emptyNameDict : JDict := JDict.set okDict "item_name" (.str "")

/-- Input for the C1 counterexample, base variant: `item_name` missing. -/
def noNameDict : JDict :=
  [("confidence", .str "HIGH"), ("confidence_reason", .str "exact match"),
   ("estimated_value_usd", .int 120), ("price_source", .str "PriceCharting"),
   ("pricing_basis", .str "USED"), ("category", .str "Video Game Software")]

/-- Counterexample for C1 as frozen: the graded validator raises a hard
failure on an empty `item_name` instead of substituting the placeholder,
and a *missing* `item_name` makes the base validator raise the
required-field failure rather than recover. -/
theorem C1_counterexample :
    validateGraded emptyNameDict 0 = .error "item_name cannot be empty or null" ∧
      validateBase noNameDict 0 = .error "Missing required fields: [item_name]" := by
  exact ⟨by rfl, by rfl⟩

/-! ## C2 — platform condition policy (base validator) -/

theorem pbDefaultNull_id {dflt : String} {d : JDict}
    (h : (JDict.getD d "pricing_basis" .null).isNull = false) :
    pbDefaultNull dflt d = d := by
  unfold pbDefaultNull
  split
  · rename_i heq
    rw [heq] at h
    exact absurd h (by simp [PyVal.isNull])
  · rfl

theorem pbSlash_id {d : JDict} {s : String}
    (h : JDict.getD d "pricing_basis" .null = .str s)
    (hns : s.data.contains '/' = false) :
    pbSlash d = .ok d := by
  have hmem : ¬ ('/' ∈ s.data) := by simpa using hns
  unfold pbSlash
  rw [h]
  simp [hmem]

theorem fixPricingBasis_id {dflt : String} {valid : List String} {d dp : JDict}
    {s : String}
    (hok : fixPricingBasis dflt valid d = .ok dp)
    (h : JDict.getD d "pricing_basis" .null = .str s)
    (hns : s.data.contains '/' = false) :
    dp = d := by
  unfold fixPricingBasis at hok
  rw [pbDefaultNull_id (by rw [h]; rfl), pbSlash_id h hns] at hok
  have := bind_ok hok
  obtain ⟨b, hb, hc⟩ := this
  cases hb
  exact pbCheckValid_ok hc

theorem loweredStrOrEmpty_str (s : String) :
    loweredStrOrEmpty (.str s) = .ok (pyLower s) := by
  unfold loweredStrOrEmpty
  split
  · rename_i hfalsy
    simp [PyVal.isTruthy] at hfalsy
    rw [hfalsy]
    rfl
  · rfl

theorem platformShouldBeCib_of_token {pl cat : String}
    (h : cibMandatoryPlatforms.any (fun p => strContains pl p) = true) :
    platformShouldBeCib pl cat = true := by
  unfold platformShouldBeCib
  simp [h]

/-- Behavior of the platform-policy step given the policy condition and
a LOOSE_DISC / LOOSE_CART basis. -/
theorem platformPolicy_fires {d : JDict} {pl : String}
    (hpl : JDict.get d "platform" = some (.str pl))
    (htok : cibMandatoryPlatforms.any (fun p => strContains (pyLower pl) p) = true)
    (hlc : isOneOfStr (JDict.getD d "pricing_basis" .null)
      ["LOOSE_DISC", "LOOSE_CART"] = true)
    {dq : JDict} (hok : platformPolicy d = .ok dq) :
    JDict.get dq "pricing_basis" = some (.str "COMPLETE_IN_BOX") ∧
      JDict.get dq "manual_review_recommended" = some (.bool true) := by
  unfold platformPolicy at hok
  rw [show JDict.getD d "platform" .null = .str pl by rw [JDict.getD, hpl]; rfl,
    loweredStrOrEmpty_str] at hok
  obtain ⟨c, hc, hok⟩ := @bind_ok _ _ (Except.ok (pyLower pl)) _ _ hok
  cases hc
  obtain ⟨cat, hcat, hok⟩ := bind_ok hok
  rw [platformShouldBeCib_of_token htok, hlc] at hok
  simp only [Bool.and_self, if_true] at hok
  have hd := (Except.ok.injEq _ _).mp hok
  rw [← hd]
  constructor
  · rw [setReasonIfEmpty_get _ _ (by decide), JDict.get_set_ne _ _ _ _ (by decide),
      JDict.get_set_self]
  · rw [setReasonIfEmpty_get _ _ (by decide), JDict.get_set_self]

/-- Behavior of the platform-policy step when the basis is not
LOOSE_DISC / LOOSE_CART: the dict is unchanged. -/
theorem platformPolicy_skips {d dq : JDict}
    (hlc : isOneOfStr (JDict.getD d "pricing_basis" .null)
      ["LOOSE_DISC", "LOOSE_CART"] = false)
    (hok : platformPolicy d = .ok dq) : dq = d := by
  unfold platformPolicy at hok
  obtain ⟨p, hp, hok⟩ := bind_ok hok
  obtain ⟨c, hc, hok⟩ := bind_ok hok
  rw [hlc] at hok
  simp only [Bool.and_false, if_false] at hok
  exact ((Except.ok.injEq _ _).mp hok).symm

/-- Claim C2: in the base validator, on a platform whose lowered string
contains a complete-in-box token, a LOOSE_DISC/LOOSE_CART basis is
overwritten to COMPLETE_IN_BOX with `manual_review_recommended=True`,
while any other valid basis value is left unchanged. -/
theorem C2_platform_policy :
    (∀ (d : JDict) (n : Int) (r : JDict) (pl v : String),
      validateBase d n = .ok r →
      JDict.get d "platform" = some (.str pl) →
      cibMandatoryPlatforms.any (fun p => strContains (pyLower pl) p) = true →
      JDict.get d "pricing_basis" = some (.str v) →
      (v = "LOOSE_DISC" ∨ v = "LOOSE_CART") →
      JDict.get r "pricing_basis" = some (.str "COMPLETE_IN_BOX") ∧
        JDict.get r "manual_review_recommended" = some (.bool true)) ∧
    (∀ (d : JDict) (n : Int) (r : JDict) (pl v : String),
      validateBase d n = .ok r →
      JDict.get d "platform" = some (.str pl) →
      cibMandatoryPlatforms.any (fun p => strContains (pyLower pl) p) = true →
      JDict.get d "pricing_basis" = some (.str v) →
      v ∈ validPricingBase →
      v ≠ "LOOSE_DISC" → v ≠ "LOOSE_CART" →
      JDict.get r "pricing_basis" = some (.str v)) := by
  have hpb_pres : ∀ {d : JDict} {dc dp : JDict} {v : String},
      fixConfidence d = .ok dc →
      fixPricingBasis "USED" validPricingBase dc = .ok dp →
      JDict.get d "pricing_basis" = some (.str v) →
      v.data.contains '/' = false →
      JDict.get dp "pricing_basis" = some (.str v) := by
    intro d dc dp v hc hp hv hns
    have hcv : JDict.get dc "pricing_basis" = some (.str v) := by
      rw [fixConfidence_get hc (by decide)]
      exact hv
    have hdp := fixPricingBasis_id hp (by rw [JDict.getD, hcv]; rfl) hns
    rw [hdp]
    exact hcv
  have hplat_pres : ∀ {d dc dp : JDict} {pl : String},
      fixConfidence d = .ok dc →
      fixPricingBasis "USED" validPricingBase dc = .ok dp →
      JDict.get d "platform" = some (.str pl) →
      JDict.get dp "platform" = some (.str pl) := by
    intro d dc dp pl hc hp hpl
    rw [fixPricingBasis_get hp (by decide) (by decide) (by decide),
      fixConfidence_get hc (by decide)]
    exact hpl
  constructor
  · intro d n r pl v hok hpl htok hv hvlc
    obtain ⟨dc, dp, dq, ds, dy, hc, hp, hq, hn, hs, hy, hm⟩ := validateBase_ok hok
    have hns : v.data.contains '/' = false := by
      rcases hvlc with h | h <;> · rw [h]; decide
    have hdpv := hpb_pres hc hp hv hns
    have hdppl := hplat_pres hc hp hpl
    have hfire := platformPolicy_fires hdppl htok
      (by
        rw [JDict.getD, hdpv]
        rcases hvlc with h | h <;> · rw [h]; decide) hq
    have hsp : JDict.get ds "pricing_basis" = some (.str "COMPLETE_IN_BOX") := by
      rw [swapRange_get hs (by decide) (by decide)]
      exact hfire.1
    have hsr : JDict.get ds "manual_review_recommended" = some (.bool true) := by
      rw [swapRange_get hs (by decide) (by decide)]
      exact hfire.2
    constructor
    · rw [fixMatchUsed_get hm (by decide) (by decide) (by decide) (by decide),
        coerceYear_get hy (by decide), coerceIssueNumber_get _ (by decide),
        recoverItemName_get _ (by decide) (by decide) (by decide)]
      exact hsp
    · have h₁ : JDict.get (coerceIssueNumber (recoverItemName ds))
          "manual_review_recommended" = some (.bool true) := by
        rw [coerceIssueNumber_get _ (by decide)]
        exact recoverItemName_review hsr
      have h₂ : JDict.get dy "manual_review_recommended" = some (.bool true) := by
        rw [coerceYear_get hy (by decide)]
        exact h₁
      exact fixMatchUsed_review hm h₂
  · intro d n r pl v hok hpl htok hv hvalid hv₁ hv₂
    obtain ⟨dc, dp, dq, ds, dy, hc, hp, hq, hn, hs, hy, hm⟩ := validateBase_ok hok
    have hns : v.data.contains '/' = false := by
      have hall : validPricingBase.all (fun w => !w.data.contains '/') = true := by decide
      have := List.all_eq_true.mp hall v hvalid
      simpa using this
    have hdpv := hpb_pres hc hp hv hns
    have hskip := @platformPolicy_skips dp _
      (by
        rw [JDict.getD, hdpv]
        simp [isOneOfStr]
        exact ⟨hv₁, hv₂⟩) hq
    have hsp : JDict.get ds "pricing_basis" = some (.str v) := by
      rw [swapRange_get hs (by decide) (by decide), hskip]
      exact hdpv
    rw [fixMatchUsed_get hm (by decide) (by decide) (by decide) (by decide),
      coerceYear_get hy (by decide), coerceIssueNumber_get _ (by decide),
      recoverItemName_get _ (by decide) (by decide) (by decide)]
    exact hsp

/-- PlayStation 2 record with a loose-disc basis (C2 witness input). -/
def ps2LooseDict : JDict :=
  (JDict.set okDict "pricing_basis" (.str "LOOSE_DISC")) ++
    [("platform", .str "PlayStation 2")]

/-- Base-validator output for `ps2LooseDict`. -/
def ps2LooseFixed : JDict :=
  (JDict.set okDict "pricing_basis" (.str "COMPLETE_IN_BOX")) ++
    [("platform", .str "PlayStation 2"),
     ("manual_review_recommended", .bool true),
     ("manual_review_reason",
      .str "LLM set LOOSE_DISC but platform defaults to COMPLETE_IN_BOX - please verify")]

/-- PlayStation 2 record with a new/sealed basis (C2 witness input). -/
def ps2SealedDict : JDict :=
  (JDict.set okDict "pricing_basis" (.str "NEW_SEALED")) ++
    [("platform", .str "PlayStation 2")]

/-- Witness for C2: `platform="PlayStation 2"`, `pricing_basis="LOOSE_DISC"`
is normalized to COMPLETE_IN_BOX with review flagged; `NEW_SEALED` on the
same platform is left unchanged. -/
theorem C2_platform_policy_witness :
    (JDict.get ps2LooseFixed "pricing_basis" = some (.str "COMPLETE_IN_BOX") ∧
      JDict.get ps2LooseFixed "manual_review_recommended" = some (.bool true)) ∧
    JDict.get ps2SealedDict "pricing_basis" = some (.str "NEW_SEALED") :=
  ⟨C2_platform_policy.1 ps2LooseDict 0 ps2LooseFixed "PlayStation 2" "LOOSE_DISC"
      (by rfl) (by rfl) (by decide) (by rfl) (Or.inl rfl),
   C2_platform_policy.2 ps2SealedDict 0 ps2SealedDict "PlayStation 2" "NEW_SEALED"
      (by rfl) (by rfl) (by decide) (by rfl) (by decide)
      (by decide) (by decide)⟩

/-! ## C7 — pricecharting_match_used -/

theorem fixMatchUsed_zero {d : JDict} {v : Int}
    (h : JDict.get d "pricecharting_match_used" = some (.int v)) :
    fixMatchUsed 0 d =
      .ok ((d.set "pricecharting_match_used" .null).set
        "pricecharting_match_confidence" (.str "NONE")) := by
  unfold fixMatchUsed
  rw [h]
  simp [PyVal.isNull, PyVal.isIntLike]

theorem fixMatchUsed_oob {n : Int} {d : JDict} {v : Int}
    (hn : 0 < n)
    (h : JDict.get d "pricecharting_match_used" = some (.int v))
    (hv : v < 1 ∨ n < v) :
    fixMatchUsed n d =
      .ok (setReasonIfEmpty
        ((d.set "pricecharting_match_used" .null).set
          "manual_review_recommended" (.bool true))
        "LLM provided invalid PriceCharting match - please verify pricing") := by
  have hmax : maxValidResults n = n := by
    unfold maxValidResults
    simp [hn]
  have hn0 : ¬ (n = 0) := by omega
  unfold fixMatchUsed
  rw [h, hmax]
  have hcond : ((PyVal.int v).toInt < 1 || n < (PyVal.int v).toInt) = true := by
    rcases hv with h₁ | h₁ <;> simp [PyVal.toInt] <;> omega
  simp [PyVal.isNull, PyVal.isIntLike, hn0, PyVal.toInt] at hcond ⊢
  rcases hcond with h₁ | h₁ <;> simp [h₁]

theorem fixMatchUsed_inrange {n : Int} {d : JDict} {v : Int}
    (hn : 0 < n)
    (h : JDict.get d "pricecharting_match_used" = some (.int v))
    (h₁ : 1 ≤ v) (h₂ : v ≤ n) :
    fixMatchUsed n d = .ok d := by
  have hmax : maxValidResults n = n := by
    unfold maxValidResults
    simp [hn]
  have hn0 : ¬ (n = 0) := by omega
  unfold fixMatchUsed
  rw [h, hmax]
  simp [PyVal.isNull, PyVal.isIntLike, hn0, PyVal.toInt]
  omega

/-- Claim C7: handling of `pricecharting_match_used` in both validators —
with zero options offered a set integer value is nulled with
match-confidence NONE; with options offered, an out-of-range value is
nulled with review flagged; an in-range value is kept unchanged. -/
theorem C7_match_used :
    (∀ (d : JDict) (r : JDict) (v : Int),
      validateBase d 0 = .ok r →
      JDict.get d "pricecharting_match_used" = some (.int v) →
      JDict.get r "pricecharting_match_used" = some .null ∧
        JDict.get r "pricecharting_match_confidence" = some (.str "NONE")) ∧
    (∀ (d : JDict) (n : Int) (r : JDict) (v : Int),
      validateBase d n = .ok r → 0 < n →
      JDict.get d "pricecharting_match_used" = some (.int v) →
      (v < 1 ∨ n < v) →
      JDict.get r "pricecharting_match_used" = some .null ∧
        JDict.get r "manual_review_recommended" = some (.bool true)) ∧
    (∀ (d : JDict) (n : Int) (r : JDict) (v : Int),
      validateBase d n = .ok r → 0 < n →
      JDict.get d "pricecharting_match_used" = some (.int v) →
      1 ≤ v → v ≤ n →
      JDict.get r "pricecharting_match_used" = some (.int v)) ∧
    (∀ (d : JDict) (r : JDict) (v : Int),
      validateGraded d 0 = .ok r →
      JDict.get d "pricecharting_match_used" = some (.int v) →
      JDict.get r "pricecharting_match_used" = some .null ∧
        JDict.get r "pricecharting_match_confidence" = some (.str "NONE")) ∧
    (∀ (d : JDict) (n : Int) (r : JDict) (v : Int),
      validateGraded d n = .ok r → 0 < n →
      JDict.get d "pricecharting_match_used" = some (.int v) →
      (v < 1 ∨ n < v) →
      JDict.get r "pricecharting_match_used" = some .null ∧
        JDict.get r "manual_review_recommended" = some (.bool true)) ∧
    (∀ (d : JDict) (n : Int) (r : JDict) (v : Int),
      validateGraded d n = .ok r → 0 < n →
      JDict.get d "pricecharting_match_used" = some (.int v) →
      1 ≤ v → v ≤ n →
      JDict.get r "pricecharting_match_used" = some (.int v)) := by
  have hpresB : ∀ {d : JDict} {dc dp dq ds dy : JDict},
      fixConfidence d = .ok dc →
      fixPricingBasis "USED" validPricingBase dc = .ok dp →
      platformPolicy dp = .ok dq →
      swapRange dq = .ok ds →
      coerceYear (coerceIssueNumber (recoverItemName ds)) = .ok dy →
      JDict.get dy "pricecharting_match_used" =
        JDict.get d "pricecharting_match_used" := by
    intro d dc dp dq ds dy hc hp hq hs hy
    rw [coerceYear_get hy (by decide), coerceIssueNumber_get _ (by decide),
      recoverItemName_get _ (by decide) (by decide) (by decide),
      swapRange_get hs (by decide) (by decide),
      platformPolicy_get hq (by decide) (by decide) (by decide),
      fixPricingBasis_get hp (by decide) (by decide) (by decide),
      fixConfidence_get hc (by decide)]
  have hpresG : ∀ {d : JDict} {dc dp ds dy : JDict},
      fixConfidence d = .ok dc →
      fixPricingBasis "GRADED_SLAB" validPricingGraded dc = .ok dp →
      swapRange dp = .ok ds →
      coerceYear (coerceIssueNumber ds) = .ok dy →
      JDict.get (coerceCertification dy) "pricecharting_match_used" =
        JDict.get d "pricecharting_match_used" := by
    intro d dc dp ds dy hc hp hs hy
    rw [coerceCertification_get _ (by decide), coerceYear_get hy (by decide),
      coerceIssueNumber_get _ (by decide),
      swapRange_get hs (by decide) (by decide),
      fixPricingBasis_get hp (by decide) (by decide) (by decide),
      fixConfidence_get hc (by decide)]
  refine ⟨?_, ?_, ?_, ?_, ?_, ?_⟩
  · intro d r v hok hv
    obtain ⟨dc, dp, dq, ds, dy, hc, hp, hq, hn, hs, hy, hm⟩ := validateBase_ok hok
    have hdy := hpresB hc hp hq hs hy
    rw [fixMatchUsed_zero (hdy.trans hv)] at hm
    have hr := (Except.ok.injEq _ _).mp hm
    rw [← hr]
    constructor
    · rw [JDict.get_set_ne _ _ _ _ (by decide), JDict.get_set_self]
    · rw [JDict.get_set_self]
  · intro d n r v hok hn0 hv hoob
    obtain ⟨dc, dp, dq, ds, dy, hc, hp, hq, hn, hs, hy, hm⟩ := validateBase_ok hok
    have hdy := hpresB hc hp hq hs hy
    rw [fixMatchUsed_oob hn0 (hdy.trans hv) hoob] at hm
    have hr := (Except.ok.injEq _ _).mp hm
    rw [← hr]
    constructor
    · rw [setReasonIfEmpty_get _ _ (by decide), JDict.get_set_ne _ _ _ _ (by decide),
        JDict.get_set_self]
    · rw [setReasonIfEmpty_get _ _ (by decide), JDict.get_set_self]
  · intro d n r v hok hn0 hv h₁ h₂
    obtain ⟨dc, dp, dq, ds, dy, hc, hp, hq, hn, hs, hy, hm⟩ := validateBase_ok hok
    have hdy := hpresB hc hp hq hs hy
    rw [fixMatchUsed_inrange hn0 (hdy.trans hv) h₁ h₂] at hm
    have hr := (Except.ok.injEq _ _).mp hm
    rw [← hr, hdy]
    exact hv
  · intro d r v hok hv
    obtain ⟨dc, dp, ds, dy, dm, hc, hp, hn, hs, hi, hy, hm, hx, hwar⟩ := validateGraded_ok hok
    have hdy := hpresG hc hp hs hy
    rw [fixMatchUsed_zero (hdy.trans hv)] at hm
    have hr := (Except.ok.injEq _ _).mp hm
    constructor
    · rw [crossValidateGrade_get hx (by decide) (by decide) (by decide), ← hr,
        JDict.get_set_ne _ _ _ _ (by decide), JDict.get_set_self]
    · rw [crossValidateGrade_get hx (by decide) (by decide) (by decide), ← hr,
        JDict.get_set_self]
  · intro d n r v hok hn0 hv hoob
    obtain ⟨dc, dp, ds, dy, dm, hc, hp, hn, hs, hi, hy, hm, hx, hwar⟩ := validateGraded_ok hok
    have hdy := hpresG hc hp hs hy
    rw [fixMatchUsed_oob hn0 (hdy.trans hv) hoob] at hm
    have hr := (Except.ok.injEq _ _).mp hm
    constructor
    · rw [crossValidateGrade_get hx (by decide) (by decide) (by decide), ← hr,
        setReasonIfEmpty_get _ _ (by decide), JDict.get_set_ne _ _ _ _ (by decide),
        JDict.get_set_self]
    · refine crossValidateGrade_review hx ?_
      rw [← hr, setReasonIfEmpty_get _ _ (by decide), JDict.get_set_self]
  · intro d n r v hok hn0 hv h₁ h₂
    obtain ⟨dc, dp, ds, dy, dm, hc, hp, hn, hs, hi, hy, hm, hx, hwar⟩ := validateGraded_ok hok
    have hdy := hpresG hc hp hs hy
    rw [fixMatchUsed_inrange hn0 (hdy.trans hv) h₁ h₂] at hm
    have hr := (Except.ok.injEq _ _).mp hm
    rw [crossValidateGrade_get hx (by decide) (by decide) (by decide), ← hr, hdy]
    exact hv

/-- Record with a hallucinated pricing index (C7 witness input). -/
def hallucinatedDict : JDict := okDict ++ [("pricecharting_match_used", .int 3)]

/-- Base-validator output for `hallucinatedDict` with zero options. -/
def hallucinatedFixed : JDict :=
  okDict ++ [("pricecharting_match_used", .null),
             ("pricecharting_match_confidence", .str "NONE")]

/-- Witness for C7: `pricecharting_match_used=3` with zero options
offered is forced to null with match-confidence NONE; the same value
with three options offered is accepted unchanged. -/
theorem C7_match_used_witness :
    (JDict.get hallucinatedFixed "pricecharting_match_used" = some .null ∧
      JDict.get hallucinatedFixed "pricecharting_match_confidence" =
        some (.str "NONE")) ∧
    JDict.get hallucinatedDict "pricecharting_match_used" = some (.int 3) :=
  ⟨C7_match_used.1 hallucinatedDict hallucinatedFixed 3 (by rfl) (by rfl),
   C7_match_used.2.2.1 hallucinatedDict 3 hallucinatedDict 3
     (by rfl) (by decide) (by rfl) (by decide) (by decide)⟩

/-! ## C5 — vision/text grade cross-validation (graded validator) -/

/-- The warnings list of a dict: `data.get('warnings', [])` when it is a
list, `[]` otherwise. -/
def warnList (d : JDict) : List PyVal :=
  match JDict.getD d "warnings" (.list []) with
  | .list xs => xs
  | _ => []

theorem PyVal.isNumber_not_null {v : PyVal} (h : v.isNumber = true) :
    v.isNull = false := by
  cases v <;> simp_all [PyVal.isNumber, PyVal.isNull]

theorem checkWarnings_list {d d' : JDict} (h : checkWarnings d = .ok d') :
    JDict.getD d "warnings" (.list []) = .list (warnList d) := by
  unfold checkWarnings at h
  unfold warnList JDict.getD
  split at h
  · rename_i v hv
    split at h
    · exact absurd h (by simp)
    · rename_i hl
      cases v <;> simp_all [PyVal.isList]
  · rename_i hv
    rw [hv]
    rfl

theorem crossValidateGrade_mismatch {d : JDict} {vg g : PyVal} {ws : List PyVal}
    (hvg : JDict.get d "vision_grade" = some vg)
    (hg : JDict.get d "grade" = some g)
    (hvnum : vg.isNumber = true) (hgnum : g.isNumber = true)
    (hwl : JDict.getD d "warnings" (.list []) = .list ws)
    (hdiff : |vg.toQ - g.toQ| > (1 : Rat) / 10) :
    crossValidateGrade d =
      .ok (setReasonIfEmpty
        ((d.set "warnings"
            (.list (ws ++ [.str (gradeMismatchWarn vg g)]))).set
          "manual_review_recommended" (.bool true))
        "Grade mismatch between vision and text analysis") := by
  have hvg₀ : JDict.getD d "vision_grade" .null = vg := by
    rw [JDict.getD, hvg]; rfl
  have hg₀ : JDict.getD d "grade" .null = g := by
    rw [JDict.getD, hg]; rfl
  unfold crossValidateGrade
  rw [hvg₀, hg₀, hwl, PyVal.isNumber_not_null hvnum, PyVal.isNumber_not_null hgnum,
    hvnum, hgnum]
  simp [hdiff]
  intro hc
  exfalso
  simp only [one_div] at hdiff
  linarith

theorem crossValidateGrade_close {d : JDict} {vg g : PyVal}
    (hvg : JDict.get d "vision_grade" = some vg)
    (hg : JDict.get d "grade" = some g)
    (hvnum : vg.isNumber = true) (hgnum : g.isNumber = true)
    (hdiff : ¬ (|vg.toQ - g.toQ| > (1 : Rat) / 10)) :
    crossValidateGrade d = .ok d := by
  have hvg₀ : JDict.getD d "vision_grade" .null = vg := by
    rw [JDict.getD, hvg]; rfl
  have hg₀ : JDict.getD d "grade" .null = g := by
    rw [JDict.getD, hg]; rfl
  unfold crossValidateGrade
  rw [hvg₀, hg₀, PyVal.isNumber_not_null hvnum, PyVal.isNumber_not_null hgnum,
    hvnum, hgnum]
  simp [hdiff]
  intro hc
  exfalso
  apply hdiff
  simp only [one_div]
  exact hc

/-- Claim C5: in the graded validator, with both a vision grade and a
model grade present (numeric): a difference of more than 0.1 appends the
mismatch warning to `warnings` and sets `manual_review_recommended`,
without overwriting `grade` or `vision_grade`; a difference of at most
0.1 changes nothing — no warning, both grade fields and `warnings`
untouched.  (Python float arithmetic is modelled by exact rationals.) -/
theorem C5_grade_crossval :
    (∀ (d : JDict) (n : Int) (r : JDict) (vg g : PyVal),
      validateGraded d n = .ok r →
      JDict.get d "vision_grade" = some vg →
      JDict.get d "grade" = some g →
      vg.isNumber = true → g.isNumber = true →
      |vg.toQ - g.toQ| > (1 : Rat) / 10 →
      JDict.get r "warnings" =
          some (.list (warnList d ++ [.str (gradeMismatchWarn vg g)])) ∧
        JDict.get r "manual_review_recommended" = some (.bool true) ∧
        JDict.get r "grade" = some g ∧
        JDict.get r "vision_grade" = some vg) ∧
    (∀ (d : JDict) (n : Int) (r : JDict) (vg g : PyVal),
      validateGraded d n = .ok r →
      JDict.get d "vision_grade" = some vg →
      JDict.get d "grade" = some g →
      vg.isNumber = true → g.isNumber = true →
      |vg.toQ - g.toQ| ≤ (1 : Rat) / 10 →
      JDict.get r "warnings" = JDict.get d "warnings" ∧
        JDict.get r "grade" = some g ∧
        JDict.get r "vision_grade" = some vg) := by
  have hpres : ∀ {d : JDict} {n : Int} {dc dp ds dy dm : JDict},
      fixConfidence d = .ok dc →
      fixPricingBasis "GRADED_SLAB" validPricingGraded dc = .ok dp →
      swapRange dp = .ok ds →
      coerceYear (coerceIssueNumber ds) = .ok dy →
      fixMatchUsed n (coerceCertification dy) = .ok dm →
      (∀ k : String, k ≠ "confidence" → k ≠ "pricing_basis" →
        k ≠ "manual_review_recommended" → k ≠ "manual_review_reason" →
        k ≠ "value_range_min" → k ≠ "value_range_max" → k ≠ "item_name" →
        k ≠ "issue_number" → k ≠ "year" → k ≠ "certification_number" →
        k ≠ "pricecharting_match_used" → k ≠ "pricecharting_match_confidence" →
        JDict.get dm k = JDict.get d k) := by
    intro d n dc dp ds dy dm hc hp hs hy hm
    intro k k₁ k₂ k₃ k₄ k₅ k₆ k₇ k₈ k₉ k₁₀ k₁₁ k₁₂
    rw [fixMatchUsed_get hm k₁₁ k₁₂ k₃ k₄, coerceCertification_get _ k₁₀,
      coerceYear_get hy k₉, coerceIssueNumber_get _ k₈,
      swapRange_get hs k₅ k₆, fixPricingBasis_get hp k₂ k₃ k₄,
      fixConfidence_get hc k₁]
  have hwarn : ∀ {d : JDict} {n : Int} {dc dp ds dy dm : JDict},
      fixConfidence d = .ok dc →
      fixPricingBasis "GRADED_SLAB" validPricingGraded dc = .ok dp →
      swapRange dp = .ok ds →
      checkWarnings ds = .ok ds →
      coerceYear (coerceIssueNumber ds) = .ok dy →
      fixMatchUsed n (coerceCertification dy) = .ok dm →
      JDict.getD dm "warnings" (.list []) = .list (warnList d) ∧
        JDict.get dm "warnings" = JDict.get d "warnings" := by
    intro d n dc dp ds dy dm hc hp hs hws hy hm
    have hmw : JDict.get dm "warnings" = JDict.get d "warnings" :=
      hpres hc hp hs hy hm "warnings" (by decide) (by decide) (by decide) (by decide)
        (by decide) (by decide) (by decide) (by decide) (by decide) (by decide)
        (by decide) (by decide)
    have hsw : JDict.get ds "warnings" = JDict.get d "warnings" := by
      rw [swapRange_get hs (by decide) (by decide),
        fixPricingBasis_get hp (by decide) (by decide) (by decide),
        fixConfidence_get hc (by decide)]
    have hl := checkWarnings_list hws
    have hgd : JDict.getD dm "warnings" (.list []) =
        JDict.getD ds "warnings" (.list []) := by
      unfold JDict.getD
      rw [hmw, ← hsw]
    have hwld : warnList ds = warnList d := by
      unfold warnList JDict.getD
      rw [hsw]
    refine ⟨?_, hmw⟩
    rw [hgd, hl, hwld]
  constructor
  · intro d n r vg g hok hvg hg hvn hgn hdiff
    obtain ⟨dc, dp, ds, dy, dm, hc, hp, hn, hs, hi, hy, hm, hx, hw⟩ :=
      validateGraded_ok hok
    have hgm : JDict.get dm "grade" = some g := by
      rw [hpres hc hp hs hy hm "grade" (by decide) (by decide) (by decide) (by decide)
        (by decide) (by decide) (by decide) (by decide) (by decide) (by decide)
        (by decide) (by decide)]
      exact hg
    have hvgm : JDict.get dm "vision_grade" = some vg := by
      rw [hpres hc hp hs hy hm "vision_grade" (by decide) (by decide) (by decide)
        (by decide) (by decide) (by decide) (by decide) (by decide) (by decide)
        (by decide) (by decide) (by decide)]
      exact hvg
    obtain ⟨hwl, hweq⟩ := hwarn hc hp hs hw hy hm
    rw [crossValidateGrade_mismatch hvgm hgm hvn hgn hwl hdiff] at hx
    have hr := (Except.ok.injEq _ _).mp hx
    rw [← hr]
    refine ⟨?_, ?_, ?_, ?_⟩
    · rw [setReasonIfEmpty_get _ _ (by decide), JDict.get_set_ne _ _ _ _ (by decide),
        JDict.get_set_self]
    · rw [setReasonIfEmpty_get _ _ (by decide), JDict.get_set_self]
    · rw [setReasonIfEmpty_get _ _ (by decide), JDict.get_set_ne _ _ _ _ (by decide),
        JDict.get_set_ne _ _ _ _ (by decide)]
      exact hgm
    · rw [setReasonIfEmpty_get _ _ (by decide), JDict.get_set_ne _ _ _ _ (by decide),
        JDict.get_set_ne _ _ _ _ (by decide)]
      exact hvgm
  · intro d n r vg g hok hvg hg hvn hgn hdiff
    obtain ⟨dc, dp, ds, dy, dm, hc, hp, hn, hs, hi, hy, hm, hx, hw⟩ :=
      validateGraded_ok hok
    have hgm : JDict.get dm "grade" = some g := by
      rw [hpres hc hp hs hy hm "grade" (by decide) (by decide) (by decide) (by decide)
        (by decide) (by decide) (by decide) (by decide) (by decide) (by decide)
        (by decide) (by decide)]
      exact hg
    have hvgm : JDict.get dm "vision_grade" = some vg := by
      rw [hpres hc hp hs hy hm "vision_grade" (by decide) (by decide) (by decide)
        (by decide) (by decide) (by decide) (by decide) (by decide) (by decide)
        (by decide) (by decide) (by decide)]
      exact hvg
    obtain ⟨hwl, hweq⟩ := hwarn hc hp hs hw hy hm
    rw [crossValidateGrade_close hvgm hgm hvn hgn (by
      exact not_lt.mpr hdiff)] at hx
    have hr := (Except.ok.injEq _ _).mp hx
    rw [← hr]
    exact ⟨hweq, hgm, hvgm⟩

/-- Graded record with vision grade 9.8 and model grade 9.6 (C5 witness). -/
def mismatchDict : JDict :=
  okDict ++ [("grade", .float (96 / 10)), ("vision_grade", .float (98 / 10))]

/-- Graded-validator output for `mismatchDict`. -/
def mismatchFixed : JDict :=
  okDict ++
    [("grade", .float (96 / 10)), ("vision_grade", .float (98 / 10)),
     ("warnings",
      .list [.str (gradeMismatchWarn (.float (98 / 10)) (.float (96 / 10)))]),
     ("manual_review_recommended", .bool true),
     ("manual_review_reason", .str "Grade mismatch between vision and text analysis")]

/-- Graded record with vision grade 9.8 and model grade 9.75 (C5 witness). -/
def closeGradeDict : JDict :=
  okDict ++ [("grade", .float (39 / 4)), ("vision_grade", .float (98 / 10))]

/-- Witness for C5: vision 9.8 vs model 9.6 appends a warning and flags
review without touching the grade; vision 9.8 vs model 9.75 changes
nothing. -/
theorem C5_grade_crossval_witness :
    (JDict.get mismatchFixed "warnings" =
        some (.list (warnList mismatchDict ++
          [.str (gradeMismatchWarn (.float (98 / 10)) (.float (96 / 10)))])) ∧
      JDict.get mismatchFixed "manual_review_recommended" = some (.bool true) ∧
      JDict.get mismatchFixed "grade" = some (.float (96 / 10)) ∧
      JDict.get mismatchFixed "vision_grade" = some (.float (98 / 10))) ∧
    (JDict.get closeGradeDict "warnings" = JDict.get closeGradeDict "warnings" ∧
      JDict.get closeGradeDict "grade" = some (.float (39 / 4)) ∧
      JDict.get closeGradeDict "vision_grade" = some (.float (98 / 10))) := by
  have hd₁ : |(PyVal.float (98 / 10)).toQ - (PyVal.float (96 / 10)).toQ| >
      (1 : Rat) / 10 := by
    norm_num [PyVal.toQ]
    rw [abs_of_pos (by norm_num)]
    norm_num
  have hd₂ : |(PyVal.float (98 / 10)).toQ - (PyVal.float (39 / 4)).toQ| ≤
      (1 : Rat) / 10 := by
    norm_num [PyVal.toQ]
    rw [abs_of_pos (by norm_num)]
    norm_num
  have h₁ : validateGraded mismatchDict 0 = .ok mismatchFixed := by
    have hchain : validateGraded mismatchDict 0 =
        crossValidateGrade mismatchDict := rfl
    rw [hchain,
      @crossValidateGrade_mismatch mismatchDict (.float (98 / 10))
        (.float (96 / 10)) [] rfl rfl rfl rfl rfl hd₁]
    rfl
  have h₂ : validateGraded closeGradeDict 0 = .ok closeGradeDict := by
    have hchain : validateGraded closeGradeDict 0 =
        crossValidateGrade closeGradeDict := rfl
    rw [hchain,
      @crossValidateGrade_close closeGradeDict (.float (98 / 10))
        (.float (39 / 4)) rfl rfl rfl rfl (not_lt.mpr hd₂)]
  exact ⟨C5_grade_crossval.1 mismatchDict 0 mismatchFixed (.float (98 / 10))
      (.float (96 / 10)) h₁ rfl rfl rfl rfl hd₁,
    C5_grade_crossval.2 closeGradeDict 0 closeGradeDict (.float (98 / 10))
      (.float (39 / 4)) h₂ rfl rfl rfl rfl hd₂⟩

/-! ## C8 — per-item retry loop (`process_item`)

`process_item` runs the whole per-item pipeline (vision pass in the
graded variant, reverse image search, conditional pricing lookup, LLM
analysis, file move, record assembly) inside one `try` per attempt.  The
pipeline body is modelled as an oracle giving, for each attempt number,
the outcome of that attempt: completion with an analysis, an escaping
`requests` Timeout / ConnectionError (the only two exceptions the retry
arm catches), or any other exception.  `time.sleep(2 ** attempt)` is
modelled by recording the waited durations. -/

inductive AttemptOutcome where
  | success (analysis : JDict)
  | netError (msg : String)
  | otherError (msg : String)

structure ItemContext where
  imagePath : String
  toteId : String
  itemSeq : Int

inductive ProcResult where
  | success (analysis : JDict)
  | failed (toteId : String) (originalFile : String) (error : String)
  | noneResult

/-- The `for attempt in range(1, MAX_RETRIES + 1)` loop of
`process_item`, with the number of remaining iterations as fuel
(`remaining = maxR + 1 - attempt`); falling off the loop returns
Python's implicit `None`. -/
def processFrom (ctx : ItemContext) (o : Nat → AttemptOutcome) (maxR : Nat) :
    Nat → Nat → List Nat → ProcResult × List Nat
  | 0, _, w => (.noneResult, w)
  | r + 1, attempt, w =>
      match o attempt with
      | .success a => (.success a, w)
      | .otherError msg => (.failed ctx.toteId ctx.imagePath msg, w)
      | .netError msg =>
          if attempt < maxR then
            processFrom ctx o maxR r (attempt + 1) (w ++ [2 ^ attempt])
          else (.failed ctx.toteId ctx.imagePath msg, w)

/-- `process_item` (both script variants have the identical retry
structure): attempts start at 1; the result is the returned record
together with the list of backoff sleeps performed. -/
def process_item (ctx : ItemContext) (o : Nat → AttemptOutcome) (maxR : Nat) :
    ProcResult × List Nat :=
  processFrom ctx o maxR maxR 1 []

theorem processFrom_skip (ctx : ItemContext) (o : Nat → AttemptOutcome)
    (maxR : Nat) (k : Nat) :
    ∀ (a : Nat) (w : List Nat), a ≤ k → k ≤ maxR →
    (∀ j, a ≤ j → j < k → ∃ m, o j = .netError m) →
    processFrom ctx o maxR (maxR + 1 - a) a w =
      processFrom ctx o maxR (maxR + 1 - k) k
        (w ++ (List.range' a (k - a)).map (fun j => 2 ^ j)) := by
  suffices hgen : ∀ (n a : Nat) (w : List Nat), k - a = n → a ≤ k → k ≤ maxR →
      (∀ j, a ≤ j → j < k → ∃ m, o j = .netError m) →
      processFrom ctx o maxR (maxR + 1 - a) a w =
        processFrom ctx o maxR (maxR + 1 - k) k
          (w ++ (List.range' a (k - a)).map (fun j => 2 ^ j)) by
    intro a w hak hkm hnet
    exact hgen (k - a) a w rfl hak hkm hnet
  intro n
  induction n with
  | zero =>
      intro a w hn hak hkm hnet
      have hae : a = k := by omega
      subst hae
      simp
  | succ n ih =>
      intro a w hn hak hkm hnet
      have halt : a < k := by omega
      obtain ⟨m, hm⟩ := hnet a (le_refl a) halt
      have hrem : maxR + 1 - a = (maxR + 1 - (a + 1)) + 1 := by omega
      rw [hrem]
      show processFrom ctx o maxR (_ + 1) a w = _
      unfold processFrom
      rw [hm]
      simp only [show a < maxR by omega, if_true]
      rw [ih (a + 1) (w ++ [2 ^ a]) (by omega) (by omega) hkm
        (fun j h₁ h₂ => hnet j (by omega) h₂)]
      have hr : List.range' a (k - a) = a :: List.range' (a + 1) (k - (a + 1)) := by
        have hka : k - a = (k - (a + 1)) + 1 := by omega
        rw [hka, List.range'_succ]
      rw [hr]
      simp
      conv_lhs => unfold processFrom

/-- Claim C8: `process_item` retries the whole pipeline only on
network-class errors, sleeping `2 ** attempt` seconds after each failed
attempt, up to `MAX_RETRIES` total attempts; any other exception
produces a failed-status record immediately; after exhausting the
retries on network errors it produces a failed-status record carrying
the error string and the original file path.  The embedding is a total
function, so no exception ever propagates to the caller. -/
theorem C8_retry_policy :
    (∀ (ctx : ItemContext) (o : Nat → AttemptOutcome) (maxR k : Nat) (msg : String),
      1 ≤ k → k ≤ maxR →
      (∀ j, 1 ≤ j → j < k → ∃ m, o j = .netError m) →
      o k = .otherError msg →
      process_item ctx o maxR =
        (.failed ctx.toteId ctx.imagePath msg,
         (List.range' 1 (k - 1)).map (fun j => 2 ^ j))) ∧
    (∀ (ctx : ItemContext) (o : Nat → AttemptOutcome) (maxR : Nat) (msg : String),
      1 ≤ maxR →
      (∀ j, 1 ≤ j → j < maxR → ∃ m, o j = .netError m) →
      o maxR = .netError msg →
      process_item ctx o maxR =
        (.failed ctx.toteId ctx.imagePath msg,
         (List.range' 1 (maxR - 1)).map (fun j => 2 ^ j))) ∧
    (∀ (ctx : ItemContext) (o : Nat → AttemptOutcome) (maxR k : Nat) (a : JDict),
      1 ≤ k → k ≤ maxR →
      (∀ j, 1 ≤ j → j < k → ∃ m, o j = .netError m) →
      o k = .success a →
      process_item ctx o maxR =
        (.success a, (List.range' 1 (k - 1)).map (fun j => 2 ^ j))) := by
  refine ⟨?_, ?_, ?_⟩
  · intro ctx o maxR k msg hk hkm hnet hother
    unfold process_item
    have hskip := processFrom_skip ctx o maxR k 1 [] hk hkm hnet
    rw [show maxR + 1 - 1 = maxR by omega] at hskip
    rw [hskip]
    have hrem : maxR + 1 - k = (maxR - k) + 1 := by omega
    rw [hrem]
    unfold processFrom
    rw [hother]
    simp
  · intro ctx o maxR msg hm hnet hlast
    unfold process_item
    have hskip := processFrom_skip ctx o maxR maxR 1 [] hm (le_refl maxR) hnet
    rw [show maxR + 1 - 1 = maxR by omega] at hskip
    rw [hskip]
    have hrem : maxR + 1 - maxR = 1 := by omega
    rw [hrem]
    unfold processFrom
    rw [hlast]
    simp [show ¬ (maxR < maxR) by omega]
  · intro ctx o maxR k a hk hkm hnet hsucc
    unfold process_item
    have hskip := processFrom_skip ctx o maxR k 1 [] hk hkm hnet
    rw [show maxR + 1 - 1 = maxR by omega] at hskip
    rw [hskip]
    have hrem : maxR + 1 - k = (maxR - k) + 1 := by omega
    rw [hrem]
    unfold processFrom
    rw [hsucc]
    simp

/-- Oracle for the C8 witness: a timeout on attempt 1, a parse error on
attempt 2. -/
def witnessOracle : Nat → AttemptOutcome :=
  fun j => if j = 1 then .netError "Timeout" else .otherError "LLM failed: invalid JSON"

def witnessCtx : ItemContext :=
  { imagePath := "/scans/img_001.jpg", toteId := "TOTE-001", itemSeq := 7 }

/-- Witness for C8: with `MAX_RETRIES = 2`, a network timeout on attempt
1 is retried after a 2-second backoff, and the non-network error on
attempt 2 fails the item immediately with the error string and the
original file path. -/
theorem C8_retry_policy_witness :
    process_item witnessCtx witnessOracle MAX_RETRIES =
      (.failed "TOTE-001" "/scans/img_001.jpg" "LLM failed: invalid JSON", [2]) := by
  have h := C8_retry_policy.1 witnessCtx witnessOracle MAX_RETRIES 2
    "LLM failed: invalid JSON" (by decide) (by decide)
    (by
      intro j h₁ h₂
      have hj : j = 1 := by omega
      subst hj
      exact ⟨"Timeout", rfl⟩)
    (by rfl)
  rw [h]
  rfl

/-! ## C9 — removal and resequencing (`remove_item.py`)

An inventory record carries `tote_id` and `item_sequence` (either may be
absent — `item.get(...)`) plus the rest of the record, abstracted as an
opaque payload.  `resequence_tote` collects the records of one tote,
stable-sorts them by `item_sequence` (missing counts as 0, as in
`x.get('item_sequence', 0)`), and assigns `1, 2, 3, ...` in that order,
mutating the records in place.  The in-place mutation is modelled
positionally: the record at inventory position `i` receives
`rank(i) + 1`, where `rank(i)` is the position of `i` in the sorted
index list — positions are distinct so this is exactly the effect of the
Python loop. -/

structure InvRec where
  tote : Option String
  seq : Option Int
  payload : Nat
  deriving Repr, DecidableEq

/-- `x.get('item_sequence', 0)` — the sort key. -/
def toteKey (r : InvRec) : Int := r.seq.getD 0

/-- Enumeration with explicit start (list positions). -/
def enumFrom : Nat → List InvRec → List (Nat × InvRec)
  | _, [] => []
  | i, a :: t => (i, a) :: enumFrom (i + 1) t

/-- `tote_items` with their inventory positions. -/
def toteIdxed (inv : List InvRec) (tid : String) : List (Nat × InvRec) :=
  (enumFrom 0 inv).filter (fun p => p.2.tote == some tid)

/-- `tote_items.sort(key=lambda x: x.get('item_sequence', 0))` — Python's
sort is stable; `insertionSort` with `≤` on the key is stable the same
way (an earlier element is kept before a later one with an equal key). -/
def sortedTote (inv : List InvRec) (tid : String) : List (Nat × InvRec) :=
  List.insertionSort (fun a b => toteKey a.2 ≤ toteKey b.2) (toteIdxed inv tid)

/-- Inventory positions of the tote records in sorted order; the record
at position `idxs[j]` receives sequence `j + 1`. -/
def rankIdxs (inv : List InvRec) (tid : String) : List Nat :=
  (sortedTote inv tid).map Prod.fst

def reseqFun (inv : List InvRec) (tid : String) (p : Nat × InvRec) : InvRec :=
  if p.2.tote == some tid then
    { p.2 with seq := some (((rankIdxs inv tid).indexOf p.1 : Int) + 1) }
  else p.2

/-- `resequence_tote(inventory, tote_id)` as a function on the list: the
enumerate-assign loop over the sorted tote records, expressed
positionally (positions are distinct, so assigning rank `j`'s record
sequence `j+1` in place is the same as mapping each tote position `i` to
its rank in the sorted order). -/
def resequence_tote (inv : List InvRec) (tid : String) : List InvRec :=
  (enumFrom 0 inv).map (reseqFun inv tid)

/-- The list update performed by `remove_item`: drop every record
matching the tote and sequence, then resequence that tote. -/
def removeAndResequence (inv : List InvRec) (tid : String) (seqv : Int) :
    List InvRec :=
  resequence_tote
    (inv.filter (fun it => !(it.tote == some tid && it.seq == some seqv))) tid

instance : IsTotal (Nat × InvRec) (fun a b => toteKey a.2 ≤ toteKey b.2) :=
  ⟨fun _ _ => le_total _ _⟩

instance : IsTrans (Nat × InvRec) (fun a b => toteKey a.2 ≤ toteKey b.2) :=
  ⟨fun _ _ _ => le_trans⟩

theorem enumFrom_map_snd (s : Nat) (l : List InvRec) :
    (enumFrom s l).map Prod.snd = l := by
  induction l generalizing s with
  | nil => rfl
  | cons a t ih => simp [enumFrom, ih]

theorem enumFrom_map_fst (s : Nat) (l : List InvRec) :
    (enumFrom s l).map Prod.fst = List.range' s l.length := by
  induction l generalizing s with
  | nil => rfl
  | cons a t ih => simp [enumFrom, ih, List.range'_succ]

theorem enumFrom_get? (s : Nat) (l : List InvRec) (i : Nat) :
    (enumFrom s l).get? i = (l.get? i).map (fun a => (s + i, a)) := by
  induction l generalizing s i with
  | nil => simp [enumFrom]
  | cons a t ih =>
      cases i with
      | zero => simp [enumFrom]
      | succ n =>
          simp only [enumFrom, List.get?_cons_succ, ih (s + 1) n]
          have hsn : s + 1 + n = s + (n + 1) := by omega
          rw [hsn]

theorem enumFrom_mem {s : Nat} {l : List InvRec} {p : Nat × InvRec}
    (h : p ∈ enumFrom s l) : l.get? (p.1 - s) = some p.2 ∧ s ≤ p.1 := by
  induction l generalizing s with
  | nil => simp [enumFrom] at h
  | cons a t ih =>
      simp only [enumFrom, List.mem_cons] at h
      rcases h with h | h
      · subst h
        simp
      · obtain ⟨h₁, h₂⟩ := ih h
        have hp : p.1 - s = (p.1 - (s + 1)) + 1 := by omega
        refine ⟨?_, by omega⟩
        rw [hp]
        simpa using h₁

theorem filter_map_comm' {α β : Type} (f : α → β) (q : β → Bool) (l : List α) :
    (l.map f).filter q = (l.filter (fun x => q (f x))).map f := by
  induction l with
  | nil => rfl
  | cons a t ih =>
      by_cases h : q (f a) <;> simp [h, ih]

theorem indexOf_map_self {l : List Nat} (h : l.Nodup) :
    l.map (fun i => l.indexOf i) = List.range l.length := by
  induction l with
  | nil => rfl
  | cons a t ih =>
      have hna : a ∉ t := (List.nodup_cons.mp h).1
      have ht := (List.nodup_cons.mp h).2
      simp only [List.map_cons, List.length_cons, List.range_succ_eq_map]
      rw [← ih ht, List.map_map]
      refine congrArg₂ _ (List.indexOf_cons_self a t) ?_
      refine List.map_congr_left ?_
      intro b hb
      have hab : a ≠ b := fun he => hna (he ▸ hb)
      exact List.indexOf_cons_ne t hab

theorem reseqFun_tote (inv : List InvRec) (tid : String) (p : Nat × InvRec) :
    (reseqFun inv tid p).tote = p.2.tote := by
  unfold reseqFun
  split <;> rfl

theorem sortedTote_perm (inv : List InvRec) (tid : String) :
    List.Perm (sortedTote inv tid) (toteIdxed inv tid) :=
  List.perm_insertionSort _ _

theorem rankIdxs_nodup (inv : List InvRec) (tid : String) :
    (rankIdxs inv tid).Nodup := by
  have hsub : List.Sublist ((toteIdxed inv tid).map Prod.fst)
      ((enumFrom 0 inv).map Prod.fst) :=
    List.Sublist.map _ (List.filter_sublist _)
  rw [enumFrom_map_fst] at hsub
  have hTnod : ((toteIdxed inv tid).map Prod.fst).Nodup :=
    List.Sublist.nodup hsub (List.nodup_range' _ _)
  exact (((sortedTote_perm inv tid).map Prod.fst).nodup_iff).mpr hTnod

/-- The tote records of the resequenced inventory carry, in inventory
order, sequence values that are a permutation of `1..k`. -/
theorem resequence_seqs_perm (inv : List InvRec) (tid : String) :
    List.Perm
      (((resequence_tote inv tid).filter (fun r => r.tote == some tid)).map
        (fun r => r.seq))
      ((List.range
        ((resequence_tote inv tid).filter
          (fun r => r.tote == some tid)).length).map
        (fun n : Nat => some ((n : Int) + 1))) := by
  unfold resequence_tote
  rw [filter_map_comm']
  have hc1 : (enumFrom 0 inv).filter
      (fun p => (reseqFun inv tid p).tote == some tid) = toteIdxed inv tid := by
    unfold toteIdxed
    exact List.filter_congr (fun p _ => by rw [reseqFun_tote])
  rw [hc1, List.map_map]
  have hc2 : (toteIdxed inv tid).map ((fun r => r.seq) ∘ reseqFun inv tid) =
      (toteIdxed inv tid).map
        (fun p => some (((rankIdxs inv tid).indexOf p.1 : Int) + 1)) := by
    refine List.map_congr_left ?_
    intro p hp
    have ht := List.of_mem_filter hp
    simp only [Function.comp_apply]
    unfold reseqFun
    rw [ht]
    rfl
  rw [hc2]
  have hc3 : (toteIdxed inv tid).map
      (fun p => some (((rankIdxs inv tid).indexOf p.1 : Int) + 1)) =
      ((toteIdxed inv tid).map Prod.fst).map
        (fun i => some (((rankIdxs inv tid).indexOf i : Int) + 1)) := by
    rw [List.map_map]
    rfl
  rw [hc3]
  have hperm₁ : List.Perm ((toteIdxed inv tid).map Prod.fst) (rankIdxs inv tid) :=
    ((sortedTote_perm inv tid).map Prod.fst).symm
  refine (hperm₁.map _).trans ?_
  have hc4 : (rankIdxs inv tid).map
      (fun i => some (((rankIdxs inv tid).indexOf i : Int) + 1)) =
      ((rankIdxs inv tid).map (fun i => (rankIdxs inv tid).indexOf i)).map
        (fun n : Nat => some ((n : Int) + 1)) := by
    rw [List.map_map]
    rfl
  rw [hc4, indexOf_map_self (rankIdxs_nodup inv tid)]
  have hlen : (rankIdxs inv tid).length =
      ((toteIdxed inv tid).map (reseqFun inv tid)).length := by
    unfold rankIdxs
    rw [List.length_map, List.length_map, (sortedTote_perm inv tid).length_eq]
  rw [hlen]

/-- The record at a tote position `i` gets sequence `rank(i) + 1`. -/
theorem resequence_get {inv : List InvRec} {tid : String} {i : Nat}
    {ri oi : InvRec}
    (hri : inv.get? i = some ri)
    (hoi : (resequence_tote inv tid).get? i = some oi)
    (hti : ri.tote = some tid) :
    oi.seq = some (((rankIdxs inv tid).indexOf i : Int) + 1) := by
  unfold resequence_tote at hoi
  rw [List.get?_map, enumFrom_get? 0 inv i, hri] at hoi
  simp only [Option.map_some', Nat.zero_add, Option.some.injEq] at hoi
  rw [← hoi]
  unfold reseqFun
  rw [hti]
  simp

theorem mem_enumFrom_of_get? {inv : List InvRec} {i : Nat} {ri : InvRec}
    (hri : inv.get? i = some ri) : (i, ri) ∈ enumFrom 0 inv := by
  have hg := enumFrom_get? 0 inv i
  rw [hri] at hg
  simp only [Option.map_some', Nat.zero_add] at hg
  exact List.get?_mem hg

/-- The element of the sorted tote list at the rank of position `i` is
exactly `(i, ri)`. -/
theorem sortedTote_get_of_rank {inv : List InvRec} {tid : String} {i : Nat}
    {ri : InvRec}
    (hri : inv.get? i = some ri) (hti : ri.tote = some tid)
    (hpi : (rankIdxs inv tid).indexOf i < (sortedTote inv tid).length) :
    (sortedTote inv tid).get ⟨(rankIdxs inv tid).indexOf i, hpi⟩ = (i, ri) := by
  have hmemS : (i, ri) ∈ sortedTote inv tid :=
    ((sortedTote_perm inv tid).mem_iff).mpr
      (List.mem_filter.mpr ⟨mem_enumFrom_of_get? hri, by simp [hti]⟩)
  have hii : i ∈ rankIdxs inv tid := List.mem_map.mpr ⟨(i, ri), hmemS, rfl⟩
  have h₁ : (rankIdxs inv tid).get? ((rankIdxs inv tid).indexOf i) = some i :=
    List.indexOf_get? hii
  have h₂ : (rankIdxs inv tid).get? ((rankIdxs inv tid).indexOf i) =
      ((sortedTote inv tid).get? ((rankIdxs inv tid).indexOf i)).map Prod.fst := by
    unfold rankIdxs
    exact List.get?_map _ _ _
  have h₃ : (sortedTote inv tid).get? ((rankIdxs inv tid).indexOf i) =
      some ((sortedTote inv tid).get
        ⟨(rankIdxs inv tid).indexOf i, hpi⟩) :=
    List.get?_eq_get hpi
  rw [h₂, h₃] at h₁
  simp only [Option.map_some', Option.some.injEq] at h₁
  have hmem₂ : (sortedTote inv tid).get
      ⟨(rankIdxs inv tid).indexOf i, hpi⟩ ∈ enumFrom 0 inv := by
    have hin := List.get_mem (sortedTote inv tid) _ hpi
    have hin₂ := ((sortedTote_perm inv tid).mem_iff).mp hin
    exact (List.mem_filter.mp hin₂).1
  have hsnd := (enumFrom_mem hmem₂).1
  rw [h₁] at hsnd
  simp only [Nat.sub_zero] at hsnd
  rw [hri] at hsnd
  exact Prod.ext h₁ (Option.some.inj hsnd).symm

/-- Renumbering follows the order of the previous sequence values: a
remaining tote record with a strictly smaller old key gets a strictly
smaller new sequence. -/
theorem resequence_mono {inv : List InvRec} {tid : String} {i j : Nat}
    {ri rj oi oj : InvRec}
    (hri : inv.get? i = some ri) (hrj : inv.get? j = some rj)
    (hoi : (resequence_tote inv tid).get? i = some oi)
    (hoj : (resequence_tote inv tid).get? j = some oj)
    (hti : ri.tote = some tid) (htj : rj.tote = some tid)
    (hkey : toteKey ri < toteKey rj) :
    ∃ a b : Int, oi.seq = some a ∧ oj.seq = some b ∧ a < b := by
  have hmemSi : (i, ri) ∈ sortedTote inv tid :=
    ((sortedTote_perm inv tid).mem_iff).mpr
      (List.mem_filter.mpr ⟨mem_enumFrom_of_get? hri, by simp [hti]⟩)
  have hmemSj : (j, rj) ∈ sortedTote inv tid :=
    ((sortedTote_perm inv tid).mem_iff).mpr
      (List.mem_filter.mpr ⟨mem_enumFrom_of_get? hrj, by simp [htj]⟩)
  have hpi : (rankIdxs inv tid).indexOf i < (sortedTote inv tid).length := by
    have hm : i ∈ rankIdxs inv tid := List.mem_map.mpr ⟨(i, ri), hmemSi, rfl⟩
    have h := List.indexOf_lt_length.mpr hm
    simpa [rankIdxs] using h
  have hpj : (rankIdxs inv tid).indexOf j < (sortedTote inv tid).length := by
    have hm : j ∈ rankIdxs inv tid := List.mem_map.mpr ⟨(j, rj), hmemSj, rfl⟩
    have h := List.indexOf_lt_length.mpr hm
    simpa [rankIdxs] using h
  have hgi := sortedTote_get_of_rank hri hti hpi
  have hgj := sortedTote_get_of_rank hrj htj hpj
  have hij : i ≠ j := by
    intro he
    subst he
    rw [hri] at hrj
    cases Option.some.inj hrj
    exact absurd hkey (lt_irrefl _)
  have hsorted : (sortedTote inv tid).Sorted
      (fun a b => toteKey a.2 ≤ toteKey b.2) :=
    List.sorted_insertionSort _ _
  have hlt : (rankIdxs inv tid).indexOf i < (rankIdxs inv tid).indexOf j := by
    rcases lt_trichotomy ((rankIdxs inv tid).indexOf i)
        ((rankIdxs inv tid).indexOf j) with h | h | h
    · exact h
    · exfalso
      apply hij
      have heq : (sortedTote inv tid).get ⟨(rankIdxs inv tid).indexOf i, hpi⟩ =
          (sortedTote inv tid).get ⟨(rankIdxs inv tid).indexOf j, hpj⟩ := by
        congr 1
        exact Fin.ext h
      rw [hgi, hgj] at heq
      exact congrArg Prod.fst heq
    · exfalso
      have hab : (⟨(rankIdxs inv tid).indexOf j, hpj⟩ :
          Fin (sortedTote inv tid).length) <
          ⟨(rankIdxs inv tid).indexOf i, hpi⟩ := h
      have hs := hsorted.rel_get_of_lt hab
      rw [hgi, hgj] at hs
      exact absurd hkey (not_lt.mpr hs)
  refine ⟨((rankIdxs inv tid).indexOf i : Int) + 1,
    ((rankIdxs inv tid).indexOf j : Int) + 1,
    resequence_get hri hoi hti, resequence_get hrj hoj htj, by omega⟩

/-- Records of other totes pass through `resequence_tote` unchanged. -/
theorem resequence_other (inv : List InvRec) (tid : String) :
    (resequence_tote inv tid).filter (fun r => !(r.tote == some tid)) =
      inv.filter (fun r => !(r.tote == some tid)) := by
  unfold resequence_tote
  rw [filter_map_comm']
  have hc : (enumFrom 0 inv).filter
      (fun p => !((reseqFun inv tid p).tote == some tid)) =
      (enumFrom 0 inv).filter (fun p => !(p.2.tote == some tid)) :=
    List.filter_congr (fun p _ => by rw [reseqFun_tote])
  rw [hc]
  have hmap_id : ((enumFrom 0 inv).filter
      (fun p => !(p.2.tote == some tid))).map (reseqFun inv tid) =
      ((enumFrom 0 inv).filter
        (fun p => !(p.2.tote == some tid))).map Prod.snd := by
    refine List.map_congr_left ?_
    intro p hp
    have ht := List.of_mem_filter hp
    have ht₂ : (p.2.tote == some tid) = false := by
      cases hb : (p.2.tote == some tid)
      · rfl
      · rw [hb] at ht
        exact absurd ht (by simp)
    unfold reseqFun
    rw [ht₂]
    rfl
  rw [hmap_id,
    ← filter_map_comm' Prod.snd (fun r => !(r.tote == some tid)) (enumFrom 0 inv),
    enumFrom_map_snd]

/-- Claim C9: immediately after `remove_item` removes the records
matching a tote and sequence and resequences that tote, (a) the
remaining records of that tote carry sequence values that are exactly
`{1..k}` (a permutation of `1..k`, hence no gaps and no duplicates),
(b) the renumbering follows the order of the previous sequence values
(strictly smaller old key gives strictly smaller new sequence), and
(c) records of other totes are unchanged, in order. -/
theorem C9_sequence_integrity (inv : List InvRec) (tid : String) (seqv : Int) :
    List.Perm
      (((removeAndResequence inv tid seqv).filter
          (fun r => r.tote == some tid)).map (fun r => r.seq))
      ((List.range
        ((removeAndResequence inv tid seqv).filter
          (fun r => r.tote == some tid)).length).map
        (fun n : Nat => some ((n : Int) + 1))) ∧
    (∀ (i j : Nat) (ri rj oi oj : InvRec),
      (inv.filter
        (fun it => !(it.tote == some tid && it.seq == some seqv))).get? i =
          some ri →
      (inv.filter
        (fun it => !(it.tote == some tid && it.seq == some seqv))).get? j =
          some rj →
      (removeAndResequence inv tid seqv).get? i = some oi →
      (removeAndResequence inv tid seqv).get? j = some oj →
      ri.tote = some tid → rj.tote = some tid →
      toteKey ri < toteKey rj →
      ∃ a b : Int, oi.seq = some a ∧ oj.seq = some b ∧ a < b) ∧
    (removeAndResequence inv tid seqv).filter (fun r => !(r.tote == some tid)) =
      inv.filter (fun r => !(r.tote == some tid)) := by
  refine ⟨resequence_seqs_perm _ tid,
    fun i j ri rj oi oj h₁ h₂ h₃ h₄ h₅ h₆ h₇ =>
      resequence_mono h₁ h₂ h₃ h₄ h₅ h₆ h₇, ?_⟩
  unfold removeAndResequence
  rw [resequence_other, List.filter_filter]
  refine List.filter_congr ?_
  intro r _
  cases hb : (r.tote == some tid) <;> simp [hb]

/-- Inventory for the C9 witness: three `T1` records with sequences
1, 3, 2 and one `T2` record. -/
def c9inv : List InvRec :=
  [⟨some "T1", some 1, 10⟩, ⟨some "T1", some 3, 11⟩,
   ⟨some "T1", some 2, 12⟩, ⟨some "T2", some 1, 13⟩]

/-- Witness for C9: after removing `T1` item 2, the remaining `T1`
records (old sequences 1 and 3) are renumbered in old-sequence order —
the record with old sequence 1 gets a strictly smaller new sequence than
the record with old sequence 3. -/
theorem C9_sequence_integrity_witness :
    ∃ a b : Int,
      (InvRec.mk (some "T1") (some 1) 10).seq = some a ∧
      (InvRec.mk (some "T1") (some 2) 11).seq = some b ∧ a < b :=
  (C9_sequence_integrity c9inv "T1" 2).2.1 0 1
    (InvRec.mk (some "T1") (some 1) 10) (InvRec.mk (some "T1") (some 3) 11)
    (InvRec.mk (some "T1") (some 1) 10) (InvRec.mk (some "T1") (some 2) 11)
    (by rfl) (by rfl) (by rfl) (by rfl) (by rfl) (by rfl) (by decide)

/-! ## C3 — JSON repair layer (`sanitize_llm_json`)

A JSON value as produced by `json.loads` (dicts modelled as ordered
association lists; Python keeps the last duplicate key — the inputs
considered below have unique keys).  Numbers are exact rationals.  The
parser accepts strict JSON (`json.loads` additionally accepts
`NaN`/`Infinity` literals and merges `\u` surrogate pairs; neither
occurs in the strings reasoned about here). -/

inductive Json where
  | null
  | bool (b : Bool)
  | num (q : Rat)
  | str (s : String)
  | arr (xs : List Json)
  | obj (ms : List (String × Json))

def Json.isObj : Json → Bool
  | .obj _ => true
  | _ => false

/-- JSON inter-token whitespace (`json.loads` strict set). -/
def jsonWs (c : Char) : Bool :=
  c == ' ' || c == '\t' || c == '\n' || c == '\r'

def hexVal (c : Char) : Option Nat :=
  if '0' ≤ c && c ≤ '9' then some (c.toNat - 48)
  else if 'a' ≤ c && c ≤ 'f' then some (c.toNat - 87)
  else if 'A' ≤ c && c ≤ 'F' then some (c.toNat - 55)
  else none

/-- Body of a JSON string after the opening quote: returns the decoded
content and the remaining input.  Raw control characters are rejected
(strict mode), escapes are decoded. -/
def parseStringBody : Nat → List Char → Option (List Char × List Char)
  | 0, _ => none
  | _ + 1, [] => none
  | _ + 1, '"' :: r => some ([], r)
  | f + 1, '\\' :: r =>
      match r with
      | '"' :: r2 => (parseStringBody f r2).map (fun p => ('"' :: p.1, p.2))
      | '\\' :: r2 => (parseStringBody f r2).map (fun p => ('\\' :: p.1, p.2))
      | '/' :: r2 => (parseStringBody f r2).map (fun p => ('/' :: p.1, p.2))
      | 'b' :: r2 => (parseStringBody f r2).map (fun p => ('\x08' :: p.1, p.2))
      | 'f' :: r2 => (parseStringBody f r2).map (fun p => ('\x0c' :: p.1, p.2))
      | 'n' :: r2 => (parseStringBody f r2).map (fun p => ('\n' :: p.1, p.2))
      | 'r' :: r2 => (parseStringBody f r2).map (fun p => ('\r' :: p.1, p.2))
      | 't' :: r2 => (parseStringBody f r2).map (fun p => ('\t' :: p.1, p.2))
      | 'u' :: h1 :: h2 :: h3 :: h4 :: r2 =>
          match hexVal h1, hexVal h2, hexVal h3, hexVal h4 with
          | some a, some b, some c, some d =>
              (parseStringBody f r2).map
                (fun p => (Char.ofNat (((a * 16 + b) * 16 + c) * 16 + d) :: p.1, p.2))
          | _, _, _, _ => none
      | _ => none
  | f + 1, c :: r =>
      if c.toNat < 32 then none
      else (parseStringBody f r).map (fun p => (c :: p.1, p.2))

/-- JSON number: sign, integer part (no leading zeros), optional
fraction and exponent; the value is the exact rational. -/
def parseNumber (l : List Char) : Option (Rat × List Char) :=
  let (neg, l₁) := match l with
    | '-' :: t => (true, t)
    | _ => (false, l)
  let intDigits := l₁.takeWhile Char.isDigit
  let l₂ := l₁.drop intDigits.length
  if intDigits.isEmpty then none
  else if intDigits.length > 1 && intDigits.headD '0' == '0' then none
  else
    let intVal : Nat := intDigits.foldl (fun a c => a * 10 + (c.toNat - 48)) 0
    let (fracDigits, l₃) := match l₂ with
      | '.' :: t =>
          let ds := t.takeWhile Char.isDigit
          (ds, t.drop ds.length)
      | _ => ([], l₂)
    if (match l₂ with | '.' :: _ => fracDigits.isEmpty | _ => false) then none
    else
      let (expOk, expNeg, expDigits, l₄) := match l₃ with
        | 'e' :: t | 'E' :: t =>
            let (en, t₁) := match t with
              | '-' :: t₂ => (true, t₂)
              | '+' :: t₂ => (false, t₂)
              | _ => (false, t)
            let ds := t₁.takeWhile Char.isDigit
            (!ds.isEmpty, en, ds, t₁.drop ds.length)
        | _ => (true, false, [], l₃)
      if !expOk then none
      else
        let fracVal : Nat := fracDigits.foldl (fun a c => a * 10 + (c.toNat - 48)) 0
        let expVal : Nat := expDigits.foldl (fun a c => a * 10 + (c.toNat - 48)) 0
        let mag : Rat := (intVal : Rat) + (fracVal : Rat) / ((10 : Rat) ^ fracDigits.length)
        let scaled : Rat :=
          if expNeg then mag / ((10 : Rat) ^ expVal) else mag * ((10 : Rat) ^ expVal)
        some ((if neg then -scaled else scaled), l₄)

mutual

def parseValue : Nat → List Char → Option (Json × List Char)
  | 0, _ => none
  | _ + 1, [] => none
  | f + 1, l =>
      match l with
      | 'n' :: 'u' :: 'l' :: 'l' :: r => some (.null, r)
      | 't' :: 'r' :: 'u' :: 'e' :: r => some (.bool true, r)
      | 'f' :: 'a' :: 'l' :: 's' :: 'e' :: r => some (.bool false, r)
      | '"' :: r =>
          (parseStringBody f r).map (fun p => (.str (String.mk p.1), p.2))
      | '\x7b' :: r => parseObjBody f (r.dropWhile jsonWs) []
      | '[' :: r => parseArrBody f (r.dropWhile jsonWs) []
      | c :: _ =>
          if c == '-' || c.isDigit then
            (parseNumber l).map (fun p => (.num p.1, p.2))
          else none
      | [] => none

def parseObjBody : Nat → List Char → List (String × Json) →
    Option (Json × List Char)
  | 0, _, _ => none
  | _ + 1, '\x7d' :: r, acc =>
      if acc.isEmpty then some (.obj [], r) else none
  | f + 1, l, acc =>
      match l with
      | '"' :: r => do
          let (key, r₁) ← parseStringBody f r
          match r₁.dropWhile jsonWs with
          | ':' :: r₂ => do
              let (v, r₃) ← parseValue f (r₂.dropWhile jsonWs)
              match r₃.dropWhile jsonWs with
              | ',' :: r₄ =>
                  parseObjBody f (r₄.dropWhile jsonWs)
                    (acc ++ [(String.mk key, v)])
              | '\x7d' :: r₄ => some (.obj (acc ++ [(String.mk key, v)]), r₄)
              | _ => none
          | _ => none
      | _ => none

def parseArrBody : Nat → List Char → List Json → Option (Json × List Char)
  | 0, _, _ => none
  | _ + 1, ']' :: r, acc =>
      if acc.isEmpty then some (.arr [], r) else none
  | f + 1, l, acc => do
      let (v, r₁) ← parseValue f l
      match r₁.dropWhile jsonWs with
      | ',' :: r₂ => parseArrBody f (r₂.dropWhile jsonWs) (acc ++ [v])
      | ']' :: r₂ => some (.arr (acc ++ [v]), r₂)
      | _ => none

end

/-- `json.loads`: one value, leading/trailing whitespace allowed, any
other trailing input is an error ("Extra data"). -/
def parseJson (s : String) : Option Json :=
  match parseValue (s.data.length + 1) (s.data.dropWhile jsonWs) with
  | some (v, rest) => if (rest.dropWhile jsonWs).isEmpty then some v else none
  | none => none

/-- The control characters removed by the first rewrite:
`[\x00-\x08\x0b\x0c\x0e-\x1f]`. -/
def isCtrlRemoved (c : Char) : Bool :=
  c.toNat ≤ 8 || c.toNat == 11 || c.toNat == 12 ||
    (14 ≤ c.toNat && c.toNat ≤ 31)

/-- Rewrite 2: `re.sub(r',\s*([}\]])', r'\1', text)` — a comma whose
next non-whitespace character is a closing brace/bracket is removed
together with the intervening whitespace; scanning resumes after the
bracket (leftmost, non-overlapping, as `re.sub`). -/
def rmTC : Nat → List Char → List Char
  | 0, l => l
  | _ + 1, [] => []
  | f + 1, c :: rest =>
      if c == ',' then
        match rest.dropWhile pyIsSpace with
        | b :: r₂ =>
            if b == '\x7d' || b == ']' then b :: rmTC f r₂
            else ',' :: rmTC f rest
        | [] => ',' :: rmTC f rest
      else c :: rmTC f rest

/-- Does the trailing-comma rewrite fire anywhere? -/
def hasTC : Nat → List Char → Bool
  | 0, _ => false
  | _ + 1, [] => false
  | f + 1, c :: rest =>
      (c == ',' &&
        (match rest.dropWhile pyIsSpace with
         | b :: _ => b == '\x7d' || b == ']'
         | [] => false)) || hasTC f rest

/-- Rewrites 3a/3b: `re.sub(r'(?<=,)\s*//[^\n]*', '', text)` and the
same with `(?<=\{)` — a `//` comment (after optional whitespace)
immediately following a comma (resp. opening brace) is removed up to the
end of the line.  The look-behind reads the input text, so scanning
continues with the last consumed character as the previous one. -/
def rmComments (trigger : Char) : Nat → Option Char → List Char → List Char
  | 0, _, l => l
  | _ + 1, _, [] => []
  | f + 1, prev, c :: rest =>
      if prev == some trigger then
        match h : (c :: rest).dropWhile pyIsSpace with
        | '/' :: '/' :: r₂ =>
            let comment := r₂.takeWhile (fun ch => ch != '\n')
            let r₃ := r₂.drop comment.length
            rmComments trigger f (some (comment.getLastD '/')) r₃
        | _ => c :: rmComments trigger f (some c) rest
      else c :: rmComments trigger f (some c) rest

/-- Two consecutive slashes somewhere in the text (necessary for either
comment rewrite to fire). -/
def hasDS : List Char → Bool
  | [] => false
  | [_] => false
  | a :: b :: rest => (a == '/' && b == '/') || hasDS (b :: rest)

/-- Character class of the arithmetic-expression rewrite:
`[\d\.\s\+\-\*/\(\)]`. -/
def mathClass (c : Char) : Bool :=
  c.isDigit || c == '.' || pyIsSpace c ||
    c == '+' || c == '-' || c == '*' || c == '/' || c == '(' || c == ')'

def isOp (c : Char) : Bool :=
  c == '+' || c == '-' || c == '*' || c == '/'

def stripTrailingWs (l : List Char) : List Char :=
  (l.reverse.dropWhile pyIsSpace).reverse

/-- Does a trimmed candidate group match `A+(?:[+\-*/]\s*[\d\.]+)+`
(a nonempty prefix followed by a final operator-then-number block)?
Checked from the right: digits/dots, optional whitespace, an operator,
and a nonempty remainder. -/
def mathGroupOk (g : List Char) : Bool :=
  let r := g.reverse
  let ds := r.takeWhile (fun c => c.isDigit || c == '.')
  if ds.isEmpty then false
  else
    match (r.drop ds.length).dropWhile pyIsSpace with
    | o :: pre => isOp o && !pre.isEmpty
    | [] => false

/-- Tokenize a paren-free arithmetic expression into a leading number
and (operator, number) pairs. -/
def mathTokens : Nat → List Char → Option (Rat × List (Char × Rat))
  | 0, _ => none
  | f + 1, l =>
      let l₁ := l.dropWhile pyIsSpace
      let num := l₁.takeWhile (fun c => c.isDigit || c == '.')
      if num.isEmpty then none
      else
        let ip := num.takeWhile Char.isDigit
        let fp := (num.drop ip.length).drop 1
        let iv : Nat := ip.foldl (fun a c => a * 10 + (c.toNat - 48)) 0
        let fv : Nat := fp.foldl (fun a c => a * 10 + (c.toNat - 48)) 0
        let q : Rat := (iv : Rat) + (fv : Rat) / ((10 : Rat) ^ fp.length)
        match (l₁.drop num.length).dropWhile pyIsSpace with
        | [] => some (q, [])
        | o :: r =>
            if isOp o then (mathTokens f r).map (fun p => (q, (o, p.1) :: p.2))
            else none

/-- Evaluate an operator chain with `* /` binding tighter than `+ -`
(`a - x ...` is computed as `a + ((-x) ...)`, which respects
left-to-right evaluation of additive chains). -/
def evalSum (acc : Rat) : List (Char × Rat) → Rat
  | [] => acc
  | (o, x) :: t =>
      if o == '*' then evalSum (acc * x) t
      else if o == '/' then evalSum (acc / x) t
      else if o == '+' then acc + evalSum x t
      else acc + evalSum (-x) t

/-- `eval` of the matched arithmetic group, over exact rationals
(Python evaluates in binary floating point; the evaluation branch is not
exercised by any theorem below). -/
def evalMathExpr (g : List Char) : Option Rat :=
  (mathTokens (g.length + 1) g).map (fun p => evalSum p.1 p.2)

/-- `round(x, 2)` — Python banker's rounding, over rationals. -/
def round2 (q : Rat) : Rat :=
  let x := q * 100
  let n : Int := ⌊x⌋
  let frac := x - (n : Rat)
  let r : Int :=
    if frac > 1 / 2 then n + 1
    else if frac < 1 / 2 then n
    else if n % 2 == 0 then n else n + 1
  (r : Rat) / 100

/-- `str(result)` for a two-decimal float, e.g. `335.43`, `335.4`,
`335.0` (decimal rendering; approximates Python float repr). -/
def ratToPyStr (q : Rat) : String :=
  let sign := if q < 0 then "-" else ""
  let a := |q| * 100
  if a.den == 1 then
    let t := a.num
    let ip := t / 100
    let fr := t % 100
    let frStr :=
      if fr == 0 then "0"
      else if fr % 10 == 0 then toString (fr / 10)
      else if fr < 10 then "0" ++ toString fr
      else toString fr
    sign ++ toString ip ++ "." ++ frStr
  else sign ++ toString a

/-- Rewrite 4: evaluate an inline arithmetic expression in a value
position — `re.sub(r':\s*([\d\.\s\+\-\*/\(\)]+(?:[+\-\*/]\s*[\d\.]+)+)\s*(?=[,}\n\r])', eval, text)`.
At a colon, the maximal run of expression characters is a candidate; the
look-ahead must be a comma, closing brace, or a newline inside the run.
Parenthesized candidates are conservatively left unchanged (the Python
regex backtracking accepts only some of them; no theorem exercises the
rewrite branch). -/
def mathPass : Nat → List Char → List Char
  | 0, l => l
  | _ + 1, [] => []
  | f + 1, c :: rest =>
      if c == ':' then
        let run := rest.takeWhile mathClass
        if run.any isOp then
          let seg := run.takeWhile (fun ch => ch != '\n' && ch != '\r')
          let lookaheadOk :=
            if seg.length < run.length then true
            else match rest.drop run.length with
              | d :: _ => d == ',' || d == '\x7d'
              | [] => false
          let g := stripTrailingWs seg
          if lookaheadOk && !(g.contains '(') && !(g.contains ')') &&
              mathGroupOk g then
            match evalMathExpr g with
            | some q =>
                ':' :: ' ' :: ((ratToPyStr (round2 q)).data ++
                  mathPass f (rest.drop seg.length))
            | none => ':' :: mathPass f rest
          else ':' :: mathPass f rest
        else ':' :: mathPass f rest
      else c :: mathPass f rest

/-- Count of double quotes not preceded by a backslash
(`re.findall(r'(?<!\\)"', s)`). -/
def countUQ : Option Char → List Char → Nat
  | _, [] => 0
  | prev, c :: rest =>
      (if c == '"' && prev != some '\\' then 1 else 0) + countUQ (some c) rest

/-- `re.sub(r'[,:]\s*$', '', s)` — drop one trailing comma/colon along
with any whitespace after it. -/
def stripTrailingPunct (l : List Char) : List Char :=
  match l.reverse.dropWhile pyIsSpace with
  | c :: t => if c == ',' || c == ':' then t.reverse else l
  | [] => l

/-- `_repair_truncated_json`: if brace/bracket counts are unbalanced,
rstrip, close an odd unescaped quote, drop a dangling comma/colon, then
append the missing closing brackets and braces. -/
def repairTruncated (l : List Char) : List Char :=
  let openBraces : Int := (l.count '\x7b' : Int) - (l.count '\x7d' : Int)
  let openBrackets : Int := (l.count '[' : Int) - (l.count ']' : Int)
  if openBraces ≤ 0 && openBrackets ≤ 0 then l
  else
    let stripped := (l.reverse.dropWhile pyIsSpace).reverse
    let s₁ :=
      if countUQ none stripped % 2 == 1 then stripped ++ ['"'] else stripped
    let s₂ := stripTrailingPunct s₁
    s₂ ++ List.replicate openBrackets.toNat ']' ++
      List.replicate openBraces.toNat '\x7d'

/-- `sanitize_llm_json`: the five rewrites in source order. -/
def sanitize_llm_json (s : String) : String :=
  let l₁ := s.data.filter (fun c => !isCtrlRemoved c)
  let l₂ := rmTC (l₁.length + 1) l₁
  let l₃ := rmComments ',' (l₂.length + 1) none l₂
  let l₄ := rmComments '\x7b' (l₃.length + 1) none l₃
  let l₅ := mathPass (l₄.length + 1) l₄
  String.mk (repairTruncated l₅)

/-- Hazard-freedom for the amended idempotence claim: no removable
control character, no comma followed (after whitespace) by a closing
brace/bracket, no double slash, no arithmetic operator character, and no
excess of opening braces/brackets over closing ones. -/
def sanitizeSafe (s : String) : Bool :=
  s.data.all (fun c => !isCtrlRemoved c) &&
  !hasTC (s.data.length + 1) s.data &&
  !hasDS s.data &&
  s.data.all (fun c => !isOp c) &&
  decide (s.data.count '\x7b' ≤ s.data.count '\x7d') &&
  decide (s.data.count '[' ≤ s.data.count ']')

theorem rmTC_id : ∀ (f : Nat) (l : List Char), hasTC f l = false → rmTC f l = l := by
  intro f
  induction f with
  | zero => intro l _; rfl
  | succ f ih =>
      intro l h
      match l with
      | [] => rfl
      | c :: rest =>
          rw [hasTC] at h
          rw [rmTC]
          simp only [Bool.or_eq_false_iff] at h
          obtain ⟨h₁, h₂⟩ := h
          by_cases hc : c == ','
          · have hceq : c = ',' := by simpa using hc
            subst hceq
            rw [if_pos hc]
            rw [hc] at h₁
            simp only [Bool.true_and] at h₁
            cases hd : rest.dropWhile pyIsSpace with
            | nil =>
                simp only [hd]
                rw [ih rest h₂]
            | cons b r₂ =>
                rw [hd] at h₁
                have h₁x : (b == '\x7d' || b == ']') = false := h₁
                simp only [hd, h₁x]
                rw [if_neg (by simp), ih rest h₂]
          · rw [if_neg hc, ih rest h₂]

theorem hasDS_cons {c : Char} {rest : List Char} (h : hasDS (c :: rest) = false) :
    hasDS rest = false := by
  cases rest with
  | nil => rfl
  | cons b r =>
      rw [hasDS] at h
      simp only [Bool.or_eq_false_iff] at h
      exact h.2

theorem hasDS_of_suffix {s l : List Char} (hs : List.IsSuffix s l)
    (h : hasDS s = true) : hasDS l = true := by
  induction l with
  | nil =>
      rw [List.suffix_nil] at hs
      rw [hs] at h
      exact absurd h (by simp [hasDS])
  | cons c rest ih =>
      rcases List.suffix_cons_iff.mp hs with h₁ | h₁
      · rw [← h₁]
        exact h
      · have hr := ih h₁
        cases rest with
        | nil => exact absurd hr (by simp [hasDS])
        | cons b r =>
            rw [hasDS]
            simp [hr]

theorem rmComments_id (t : Char) :
    ∀ (f : Nat) (prev : Option Char) (l : List Char),
    hasDS l = false → rmComments t f prev l = l := by
  intro f
  induction f with
  | zero => intro prev l _; rfl
  | succ f ih =>
      intro prev l h
      match l with
      | [] => rfl
      | c :: rest =>
          rw [rmComments]
          by_cases hp : prev == some t
          · rw [if_pos hp]
            split
            · rename_i r₂ heq
              exfalso
              have hsuf : List.IsSuffix ('/' :: '/' :: r₂) (c :: rest) := by
                rw [← heq]
                exact List.dropWhile_suffix _
              have hds₂ : hasDS ('/' :: '/' :: r₂) = true := by
                rw [hasDS]
                simp
              have := hasDS_of_suffix hsuf hds₂
              rw [this] at h
              exact absurd h (by simp)
            · rw [ih (some c) rest (hasDS_cons h)]
          · rw [if_neg hp, ih (some c) rest (hasDS_cons h)]

theorem mathPass_id : ∀ (f : Nat) (l : List Char),
    l.all (fun c => !isOp c) = true → mathPass f l = l := by
  intro f
  induction f with
  | zero => intro l _; rfl
  | succ f ih =>
      intro l h
      match l with
      | [] => rfl
      | c :: rest =>
          rw [List.all_cons] at h
          simp only [Bool.and_eq_true] at h
          obtain ⟨h₁, h₂⟩ := h
          rw [mathPass]
          by_cases hc : c == ':'
          · rw [if_pos hc]
            have hrun : (rest.takeWhile mathClass).any isOp = false := by
              cases hn : (rest.takeWhile mathClass).any isOp
              · rfl
              · exfalso
                obtain ⟨x, hx, hox⟩ := List.any_eq_true.mp hn
                have hxm : x ∈ rest := List.Sublist.subset (List.takeWhile_sublist _) hx
                have := List.all_eq_true.mp h₂ x hxm
                rw [hox] at this
                exact absurd this (by simp)
            simp only [hrun, Bool.false_eq_true, if_false]
            rw [show c = ':' from by simpa using hc, ih rest h₂]
          · rw [if_neg hc, ih rest h₂]

theorem repairTruncated_id {l : List Char}
    (h₁ : l.count '\x7b' ≤ l.count '\x7d')
    (h₂ : l.count '[' ≤ l.count ']') :
    repairTruncated l = l := by
  unfold repairTruncated
  rw [if_pos]
  simp only [Bool.and_eq_true, decide_eq_true_eq]
  omega

/-- Under `sanitizeSafe`, every rewrite is the identity. -/
theorem sanitize_id {s : String} (h : sanitizeSafe s = true) :
    sanitize_llm_json s = s := by
  unfold sanitizeSafe at h
  simp only [Bool.and_eq_true, Bool.not_eq_true', decide_eq_true_eq] at h
  obtain ⟨⟨⟨⟨⟨hctrl, htc⟩, hds⟩, hop⟩, hbr⟩, hsq⟩ := h
  have e₁ : s.data.filter (fun c => !isCtrlRemoved c) = s.data := by
    rw [List.filter_eq_self]
    intro a ha
    have := List.all_eq_true.mp hctrl a ha
    simpa using this
  simp only [sanitize_llm_json]
  rw [e₁, rmTC_id _ _ htc, rmComments_id ',' _ _ _ hds,
    rmComments_id '\x7b' _ _ _ hds, mathPass_id _ _ hop,
    repairTruncated_id hbr hsq]

/-- A string literal holding a lone opening brace: the input is a valid
JSON object, but the truncation-repair pass counts the brace inside the
literal and appends a closing brace. -/
def cexStr : String := "\x7b\"k\": \"\x7b\"\x7d"

/-- C3 counterexample: `cexStr` parses as a JSON object, yet
`sanitize_llm_json cexStr` no longer parses — the repair appended a
spurious closing brace for the brace inside the string literal. -/
theorem C3_counterexample :
    parseJson cexStr = some (.obj [("k", .str "\x7b")]) ∧
    parseJson (sanitize_llm_json cexStr) = none := ⟨rfl, rfl⟩

/-- C3 (amended): for an input that parses as a JSON object and is free
of the rewrite hazards — no removable control characters, no comma
followed (after whitespace) by a closing brace/bracket, no double slash,
no arithmetic-operator characters, and no excess of opening over closing
braces/brackets anywhere in the raw text (string literals included) —
`sanitize_llm_json` returns the input unchanged, hence parsing to the
same value. The unrestricted claim fails: see `C3_counterexample`. -/
theorem C3_repair_idempotence (s : String) (v : Json)
    (hp : parseJson s = some v) (hobj : v.isObj = true)
    (hsafe : sanitizeSafe s = true) :
    sanitize_llm_json s = s ∧ parseJson (sanitize_llm_json s) = some v := by
  refine ⟨sanitize_id hsafe, ?_⟩
  rw [sanitize_id hsafe]
  exact hp

def wStr : String := "\x7b\"a\": \"x\"\x7d"

def wVal : Json := .obj [("a", .str "x")]

theorem C3_repair_idempotence_witness :
    sanitize_llm_json wStr = wStr ∧ parseJson (sanitize_llm_json wStr) = some wVal :=
  C3_repair_idempotence wStr wVal rfl rfl rfl

/- ## pricecharting_collection_generator.py — platform normalization -/

/-- `PLATFORM_NORMALIZE` (source order). -/
def platformNormalize : List (String × String) := [
  ("Nintendo Entertainment System", "NES"),
  ("Nintendo Entertainment System (NES)", "NES"),
  ("Super Nintendo Entertainment System", "SNES"),
  ("Super Nintendo Entertainment System (SNES)", "SNES"),
  ("Super Nintendo", "SNES"),
  ("Nintendo 64", "N64"),
  ("Nintendo GameCube", "GameCube"),
  ("Nintendo Wii", "Wii"),
  ("Nintendo Wii U", "Wii U"),
  ("Nintendo Switch", "Switch"),
  ("Game Boy Advance", "GBA"),
  ("Game Boy Color", "GBC"),
  ("Nintendo Game Boy", "GB"),
  ("Game Boy", "GB"),
  ("Nintendo DS", "NDS"),
  ("Nintendo 3DS", "3DS"),
  ("PlayStation", "PS1"),
  ("Sony PlayStation", "PS1"),
  ("PlayStation 1", "PS1"),
  ("PlayStation 2", "PS2"),
  ("PlayStation 3", "PS3"),
  ("PlayStation 4", "PS4"),
  ("PlayStation 5", "PS5"),
  ("PlayStation Portable", "PSP"),
  ("PlayStation Portable (PSP)", "PSP"),
  ("Sony PlayStation Portable", "PSP"),
  ("PlayStation Vita", "Vita"),
  ("PS Vita", "Vita"),
  ("Microsoft Xbox", "Xbox"),
  ("Xbox Series X|S", "Xbox Series X"),
  ("Sega Genesis", "Genesis"),
  ("Sega Saturn", "Saturn"),
  ("Sega Dreamcast", "Dreamcast"),
  ("Sega Master System", "SMS"),
  ("Master System", "SMS"),
  ("Sega 32X", "32X"),
  ("Super Famicom", "SFC"),
  ("Famicom", "FC"),
  ("PC Engine", "PCE"),
  ("Mega Drive", "MD"),
  ("TurboGrafx-16", "TG-16"),
  ("PSX", "PS1"),
  ("NDS", "NDS"),
  ("DS", "NDS")]

/-- `REGIONAL_PLATFORM_PAIRS`: Japanese abbreviation → US equivalent. -/
def regionalPlatformPairs : List (String × String) :=
  [("SFC", "SNES"), ("FC", "NES"), ("PCE", "TG-16"), ("MD", "Genesis")]

/-- `_US_TO_JP_PLATFORM`: the inverted pairs. -/
def usToJpPlatform : List (String × String) :=
  regionalPlatformPairs.map (fun p => (p.2, p.1))

/-- First-match association lookup for the string tables (`dict.get`;
keys are unique in the source dicts). -/
def sGet (d : List (String × String)) (k : String) : Option String :=
  match d.find? (fun p => p.1 == k) with
  | some p => some p.2
  | none => none

/-- The extra verbose forms added when building `_ALL_PLATFORM_NAMES`. -/
def platformExtras : List String := [
  "Super Famicom", "Famicom", "Mega Drive", "PC Engine",
  "TurboGrafx-16", "Atari 2600", "Atari 7800",
  "Game Boy", "GB", "GBC", "GBA",
  "NES", "SNES", "N64", "NDS",
  "PS1", "PS2", "PS3", "PS4", "PS5", "PSP", "PS Vita", "Vita",
  "GameCube", "Wii", "Wii U", "Switch",
  "Xbox", "Xbox 360", "Xbox One", "Xbox Series X",
  "Genesis", "Saturn", "Dreamcast", "SMS", "Master System",
  "Sega CD", "32X", "DS", "3DS",
  "SFC", "FC", "PCE", "MD", "TG-16"]

/-- First-occurrence dedup standing in for the source's `set(...)`. -/
def dedupFirst (l : List String) : List String :=
  l.foldl (fun acc x => if acc.contains x then acc else acc ++ [x]) []

/-- `_ALL_PLATFORM_NAMES`: every known name, longest first.  The stable
insertion sort mirrors Python's stable `sorted`; the tie order among
equal-length names is unspecified in the source (set iteration order),
and the facts proved below do not depend on it. -/
def allPlatformNames : List String :=
  List.insertionSort (fun a b => b.length ≤ a.length)
    (dedupFirst (platformNormalize.map Prod.fst ++
      platformNormalize.map Prod.snd ++ platformExtras))

/-- Regex word character (`\w` over the ASCII inputs used here). -/
def isWordC (c : Char) : Bool :=
  (97 ≤ c.toNat && c.toNat ≤ 122) || (65 ≤ c.toNat && c.toNat ≤ 90) ||
  (48 ≤ c.toNat && c.toNat ≤ 57) || c == '_'

/-- Case-insensitive character equality (`re.IGNORECASE`, ASCII). -/
def ciEq (a b : Char) : Bool := pyLowerChar a == pyLowerChar b

def ciPrefix : List Char → List Char → Bool
  | [], _ => true
  | _ :: _, [] => false
  | p :: ps, t :: ts => ciEq p t && ciPrefix ps ts

/-- `\b`: the two sides differ in word-ness (text edges are non-word). -/
def bnd (a b : Option Char) : Bool :=
  (match a with | some c => isWordC c | none => false) !=
  (match b with | some c => isWordC c | none => false)

/-- Whole-word, case-insensitive occurrence of `pat` at the head of `t`,
where `prev` is the character just before `t` in the full text. -/
def wordHit (pat : List Char) (prev : Option Char) (t : List Char) : Bool :=
  ciPrefix pat t && bnd prev t.head? &&
  bnd (t.take pat.length).getLast? (t.drop pat.length).head?

def wordSearchAux (pat : List Char) : Option Char → List Char → Bool
  | _, [] => false
  | prev, c :: rest =>
      wordHit pat prev (c :: rest) || wordSearchAux pat (some c) rest

/-- `re.search(r'\b'+re.escape(name)+r'\b', t, re.IGNORECASE)`. -/
def wordSearch (pat t : List Char) : Bool := wordSearchAux pat none t

/-- `re.sub(..., '', remaining)`: delete every leftmost non-overlapping
whole-word occurrence.  Fuel bounds the scan (each step consumes at
least one character). -/
def wordSubAux (pat : List Char) : Nat → Option Char → List Char → List Char
  | 0, _, t => t
  | _ + 1, _, [] => []
  | f + 1, prev, c :: rest =>
      if wordHit pat prev (c :: rest) then
        wordSubAux pat f ((c :: rest).take pat.length).getLast?
          ((c :: rest).drop pat.length)
      else c :: wordSubAux pat f (some c) rest

def wordSub (pat t : List Char) : List Char :=
  wordSubAux pat (t.length + 1) none t

/-- The compound-string loop of `normalize_platform`: scan
`_ALL_PLATFORM_NAMES` longest-first, collecting normalized names and
deleting (then stripping) each match from the remaining text. -/
def extractPlatforms (names : List String) (platform : List Char) :
    List String × List Char :=
  names.foldl
    (fun acc name =>
      if wordSearch name.data acc.2 then
        ((let normalized := (sGet platformNormalize name).getD name
          if acc.1.contains normalized then acc.1 else acc.1 ++ [normalized]),
          pyStripChars (wordSub name.data acc.2))
      else acc)
    ([], platform)

/-- `normalize_platform(platform, region)`. -/
def normalize_platform (platform : String) (region : Option String) : String :=
  if platform == "" then platform
  else
    match sGet platformNormalize platform with
    | some result =>
        if region == some "NTSC-J" then
          match sGet usToJpPlatform result with
          | some jp => jp
          | none => result
        else result
    | none =>
        match (extractPlatforms allPlatformNames platform.data).1 with
        | [] => platform
        | [result] =>
            if region == some "NTSC-J" then
              match sGet usToJpPlatform result with
              | some jp => jp
              | none => result
            else result
        | r₀ :: r₁ :: rs =>
            if region == some "NTSC-J" then
              match (r₀ :: r₁ :: rs).find?
                  (fun f => (sGet regionalPlatformPairs f).isSome) with
              | some f => f
              | none => r₀
            else if region == some "NTSC-U" then
              match (r₀ :: r₁ :: rs).find?
                  (fun f => (sGet regionalPlatformPairs f).isNone) with
              | some f => f
              | none => r₀
            else r₀
set_option maxRecDepth 100000

/-- C10 counterexample: for a compound string pairing a Japanese
platform name with its US equivalent, an absent (or PAL) region does
NOT always give the non-Japanese short form — when the Japanese name is
the longer of the two it is extracted first and `found[0]` is the
Japanese abbreviation: with no region, 'Famicom / NES' normalizes to
'FC', and with region 'PAL', 'Mega Drive / Genesis' normalizes to
'MD'. -/
theorem C10_counterexample :
    normalize_platform "Famicom / NES" none = "FC" ∧
    normalize_platform "Mega Drive / Genesis" (some "PAL") = "MD" :=
  ⟨rfl, rfl⟩

/-- C10 (amended): over the four regional pairs' compound strings,
region NTSC-J selects the Japanese short form and NTSC-U the US short
form, but any other or absent region falls back to the first-extracted
(longest-name) form: the US form for the Super Famicom and PC Engine
pairs, yet the Japanese form for the Famicom and Mega Drive pairs — so
the original claim holds only for the NTSC-J and NTSC-U regions, not
for PAL or an absent region. -/
theorem C10_regional_pairs :
    (normalize_platform "Super Famicom / Super Nintendo" (some "NTSC-J") = "SFC" ∧
     normalize_platform "Super Famicom / Super Nintendo" (some "NTSC-U") = "SNES" ∧
     normalize_platform "Super Famicom / Super Nintendo" none = "SNES" ∧
     normalize_platform "Super Famicom / Super Nintendo" (some "PAL") = "SNES") ∧
    (normalize_platform "Famicom / NES" (some "NTSC-J") = "FC" ∧
     normalize_platform "Famicom / NES" (some "NTSC-U") = "NES" ∧
     normalize_platform "Famicom / NES" (some "PAL") = "FC") ∧
    (normalize_platform "PC Engine / TurboGrafx-16" (some "NTSC-J") = "PCE" ∧
     normalize_platform "PC Engine / TurboGrafx-16" (some "NTSC-U") = "TG-16" ∧
     normalize_platform "PC Engine / TurboGrafx-16" none = "TG-16") ∧
    (normalize_platform "Mega Drive / Genesis" (some "NTSC-J") = "MD" ∧
     normalize_platform "Mega Drive / Genesis" (some "NTSC-U") = "Genesis" ∧
     normalize_platform "Mega Drive / Genesis" none = "MD") :=
  ⟨⟨rfl, rfl, rfl, rfl⟩, ⟨rfl, rfl, rfl⟩, ⟨rfl, rfl, rfl⟩, ⟨rfl, rfl, rfl⟩⟩

end Ditto
